import Mathlib

/-! Verification of asg-healthcheck-agent.

A shallow embedding of the orchestration core of the agent:

* `scriptengine/healthcheck.go`: the probe task, its hysteresis counters
  (`determineFailure`) and the body of its scheduling loop;
* `scriptengine/healthcheckengine.go`: the routine that forwards stable failures;
* `statemanager/statemanager.go`: the `Healthy` flag, `actionFailure` and `Stop`;
* `scriptengine/failurehook.go`, `failurehookengine.go`: the failure hooks and
  their retry loop;
* `scriptengine/process.go`: the exit code `Process.run` returns;
* `webserver/webserver.go`: the status handler;
* `main.go`: the run loop of the program and its exit status.

Conventions.  Go's `uint` is a natural number reduced modulo `2 ^ w`, where the
width `w` (32 or 64 on the supported targets) is a parameter.  Go's `int` exit
codes are integers; no arithmetic is done on them.  Calls that leave the
function (a send on a channel, a log line, a metric, a call through an
interface, the closing of a channel) are recorded, in program order, in a
trace that the function returns next to the new state.  Loops whose number of
iterations is not bounded by the code take a fuel argument and return `none`
when it runs out.
-/

namespace AsgHealthcheck

/-! ## Machine integers -/

/-- Reduction of a natural number to a `uint` of `w` bits. -/
def wrapUint (w n : Nat) : Nat := n % 2 ^ w

/-- Reduction of an integer to an `int64` (two's complement). -/
def wrapInt64 (n : Int) : Int := (n + 2 ^ 63) % 2 ^ 64 - 2 ^ 63

/-- The value of `time.Duration(seconds) * time.Second`, in nanoseconds: the
`uint` is converted to `int64` and multiplied by `1000000000` in `int64`. -/
def sleepDuration (seconds : Nat) : Int :=
  wrapInt64 (wrapInt64 seconds * 1000000000)

/-! ## The probe task (`scriptengine/healthcheck.go`) -/

/-- The data fields of `type HealthCheck struct`.  The channels and the lock
carry no data of their own: what is sent on `failedChan` is in the trace. -/
structure HealthCheck where
  Name : String
  Description : String
  LastExitCode : Int
  LastRuntime : String
  TotalFailureCount : Nat
  RecoveryAttempt : Nat
  FailureSinceLastRecovery : Nat
  FreqSeconds : Nat
  AllowedFailures : Nat
  RecoveriesRequired : Nat
  GraceMode : Bool
  failureCounter : Nat
  bin : String
  args : List String
  running : Bool
  deriving DecidableEq, Repr

/-- The fields of `config.HealthCheck`. -/
structure HealthCheckConfig where
  Name : String
  Description : String
  Bin : String
  Args : List String
  FreqSeconds : Nat
  AllowedFailures : Nat
  RecoverySuccessCount : Nat
  deriving DecidableEq, Repr

/-- Constructor `newHealthCheck`: the fields it names are set from the
configuration, `GraceMode` is on, the others have Go's zero value. -/
def newHealthCheck (cfg : HealthCheckConfig) : HealthCheck :=
  { Name := cfg.Name
    Description := cfg.Description
    GraceMode := true
    LastExitCode := -1
    LastRuntime := "never"
    FreqSeconds := cfg.FreqSeconds
    AllowedFailures := cfg.AllowedFailures
    RecoveriesRequired := cfg.RecoverySuccessCount
    bin := cfg.Bin
    args := cfg.Args
    TotalFailureCount := 0
    RecoveryAttempt := 0
    FailureSinceLastRecovery := 0
    failureCounter := 0
    running := false }

/-- Method `HealthCheck.determineFailure`.  The second component lists the
values of the send statements `hc.failedChan <- hc.Name` it executes, in
order; whether a receiver or a free buffer slot is there for them is the
business of the other end of the channel. -/
def determineFailure (w : Nat) (hc : HealthCheck) : HealthCheck × List String :=
  if hc.LastExitCode ≠ 0 then
    let hc1 := { hc with TotalFailureCount := wrapUint w (hc.TotalFailureCount + 1) }
    let hc2 := { hc1 with
      FailureSinceLastRecovery := wrapUint w (hc1.FailureSinceLastRecovery + 1) }
    let sent := if hc2.FailureSinceLastRecovery > hc2.AllowedFailures then [hc2.Name] else []
    let hc3 := if hc2.RecoveryAttempt ≠ 0 then { hc2 with RecoveryAttempt := 0 } else hc2
    (hc3, sent)
  else if hc.FailureSinceLastRecovery > 0 then
    let hc1 := { hc with RecoveryAttempt := wrapUint w (hc.RecoveryAttempt + 1) }
    if hc1.RecoveryAttempt ≥ hc1.RecoveriesRequired then
      ({ hc1 with FailureSinceLastRecovery := 0, RecoveryAttempt := 0 }, [])
    else
      (hc1, [])
  else
    (hc, [])

/-- One evaluation: the statements `hc.LastExitCode = exitcode` and
`hc.determineFailure()` of the scheduling loop (and of the tests, which set
`LastExitCode` by hand). -/
def evaluate (w : Nat) (hc : HealthCheck) (exitcode : Int) : HealthCheck × List String :=
  determineFailure w { hc with LastExitCode := exitcode }

/-- A run of evaluations, one per exit code, in order; the values sent on
`failedChan` are concatenated. -/
def evaluations (w : Nat) : HealthCheck → List Int → HealthCheck × List String
  | hc, [] => (hc, [])
  | hc, c :: cs =>
    let r := evaluate w hc c
    let rest := evaluations w r.1 cs
    (rest.1, r.2 ++ rest.2)

/-- What one launch of an external command comes to: `newProcess` fails,
`Process.run` fails, or the command ends with an exit code. -/
inductive AttemptOutcome where
  | createError (err : String)
  | runError (err : String)
  | exited (exitcode : Int)
  deriving DecidableEq, Repr

/-- Severities of `logs.JSONLog` used by the embedded code. -/
inductive LogLevel where
  | DEBUG
  | INFO
  | WARNING
  | ERROR
  deriving DecidableEq, Repr

/-- Calls of the probe task that leave it. -/
inductive ProbeEvent where
  | log (message : String) (level : LogLevel)
  | sendFailed (name : String)
  | healthcheckRunMetric (successful : String) (name : String)
  deriving DecidableEq, Repr

/-- Function `metricHealthcheckRanProcess`: one `healthcheck_run` increment. -/
def metricHealthcheckRanProcess (name : String) (exitcode : Int) : ProbeEvent :=
  let success := if exitcode ≠ 0 then "false" else "true"
  ProbeEvent.healthcheckRunMetric success name

/-- How the body of a loop leaves: on to the next iteration (the end of the
body or `continue`), out of the loop (`break`), or out of the routine
(`return`). -/
inductive LoopControl where
  | next
  | broke
  | returned
  deriving DecidableEq, Repr

/-- The `case <-ticker.C:` branch of the loop in `HealthCheck.Start`: one tick.
`now` is the formatted `time.Now()`, `outcome` what launching the command
comes to. -/
def tick (w : Nat) (hc : HealthCheck) (now : String) (outcome : AttemptOutcome) :
    HealthCheck × List ProbeEvent × LoopControl :=
  let attempting := ProbeEvent.log "Attempting to run healthcheck" LogLevel.DEBUG
  match outcome with
  | AttemptOutcome.createError _ =>
    ({ hc with LastExitCode := 1 },
      [attempting, ProbeEvent.log "failed to create process" LogLevel.ERROR],
      LoopControl.next)
  | AttemptOutcome.runError _ =>
    ({ hc with LastExitCode := 1 },
      [attempting, ProbeEvent.log "failed to run process" LogLevel.ERROR],
      LoopControl.returned)
  | AttemptOutcome.exited exitcode =>
    let hc1 := { hc with LastExitCode := exitcode, LastRuntime := now }
    if !hc1.GraceMode then
      let r := determineFailure w hc1
      (r.1,
        [attempting] ++ r.2.map ProbeEvent.sendFailed
          ++ [metricHealthcheckRanProcess r.1.Name r.1.LastExitCode],
        LoopControl.next)
    else
      (hc1, [attempting], LoopControl.next)

/-! ## The probe engine (`scriptengine/healthcheckengine.go`) -/

/-- The receiving end of `internalFailureChan` as the forwarding routine sees
it: the values the probe tasks place on it, oldest first (a sender whose value
does not fit the buffer waits its turn), and whether it has been closed. -/
structure FailureChan where
  pending : List String
  closed : Bool
  deriving DecidableEq, Repr

/-- The routine started by `go func() ...` in `HealthCheckEngine.Start`: one
`select` with one receiving case, not inside a `for`.  It returns the values
sent on `ExternalFailureChannel` and the channel as the routine leaves it.
With nothing pending the receive either reports the closed channel
(`!ok`, `return`) or never completes; neither relays anything. -/
def forwardFailures (internalFailureChan : FailureChan) : List String × FailureChan :=
  match internalFailureChan.pending with
  | FailureName :: rest => ([FailureName], { internalFailureChan with pending := rest })
  | [] => if internalFailureChan.closed then ([], internalFailureChan)
          else ([], internalFailureChan)

/-! ## The state manager (`statemanager/statemanager.go`) -/

/-- The state of a channel variable as far as `close` depends on it: the nil
channel of a field never assigned, a channel made by `make`, a closed one. -/
inductive ChanState where
  | nil
  | made
  | closed
  deriving DecidableEq, Repr

/-- The data fields of `type StateManager struct`, and the state of its
`metricHeartBeatChan`, which is nil until `Start` assigns it.  The two engines
are interface values: calls through them are in the trace. -/
structure StateManager where
  runFailureHooksOnSignal : Bool
  runFailureHooks : Bool
  Healthy : Bool
  metricHeartBeatChan : ChanState := ChanState.nil
  deriving DecidableEq, Repr

/-- Calls of the state manager that leave it.  `panic` is the run-time panic
of a `close` on a nil or closed channel, which ends the program. -/
inductive ManagerEvent where
  | healthCheckEngineStart
  | healthCheckEngineStop
  | runHooks
  | closeExitChan
  | closeMetricHeartBeatChan
  | log (message : String) (level : LogLevel) (checkName : String)
  | panic (message : String)
  deriving DecidableEq, Repr

/-- Constructor `New` of package `statemanager`: it does not assign
`metricHeartBeatChan`. -/
def New (runHooksOnSignal runHooks : Bool) : StateManager :=
  { Healthy := true
    runFailureHooksOnSignal := runHooksOnSignal
    runFailureHooks := runHooks
    metricHeartBeatChan := ChanState.nil }

/-- Method `StateManager.Start`, the part that runs in the caller: the probe
engine is started and `startMetricsHeartBeat` makes the heartbeat channel.
The routines it starts are the one that turns grace mode off after the grace
period and `readFromFailChan`. -/
def StateManager.Start (sm : StateManager) : StateManager × List ManagerEvent :=
  ({ sm with metricHeartBeatChan := ChanState.made }, [ManagerEvent.healthCheckEngineStart])

/-- Method `StateManager.Stop`.  Its last statement,
`close(sm.metricHeartBeatChan)`, panics when the channel is nil (the manager
was never started) or already closed (a second `Stop`). -/
def StateManager.Stop (sm : StateManager) (singalTermination : Bool) :
    StateManager × List ManagerEvent :=
  let hooks :=
    if singalTermination then
      if sm.runFailureHooksOnSignal then [ManagerEvent.runHooks] else []
    else []
  match sm.metricHeartBeatChan with
  | ChanState.made =>
    ({ sm with metricHeartBeatChan := ChanState.closed },
      [ManagerEvent.healthCheckEngineStop] ++ hooks ++ [ManagerEvent.closeMetricHeartBeatChan])
  | ChanState.nil =>
    (sm, [ManagerEvent.healthCheckEngineStop] ++ hooks
      ++ [ManagerEvent.panic "close of nil channel"])
  | ChanState.closed =>
    (sm, [ManagerEvent.healthCheckEngineStop] ++ hooks
      ++ [ManagerEvent.panic "close of closed channel"])

/-- Method `StateManager.actionFailure`. -/
def StateManager.actionFailure (sm : StateManager) (failureCause : String) :
    StateManager × List ManagerEvent :=
  if !sm.Healthy then
    (sm, [])
  else
    let sm1 := { sm with Healthy := false }
    let hooks := if sm1.runFailureHooks then [ManagerEvent.runHooks] else []
    (sm1,
      [ManagerEvent.log "Stable failure detected" LogLevel.WARNING failureCause,
        ManagerEvent.healthCheckEngineStop] ++ hooks ++ [ManagerEvent.closeExitChan])

/-- Method `StateManager.readFromFailChan` on the notifications it receives, in
order: `actionFailure` on each. -/
def StateManager.readFromFailChan (sm : StateManager) :
    List String → StateManager × List ManagerEvent
  | [] => (sm, [])
  | failureName :: rest =>
    let r := sm.actionFailure failureName
    let tail := StateManager.readFromFailChan r.1 rest
    (tail.1, r.2 ++ tail.2)

/-! ## The failure hooks (`scriptengine/failurehook.go`, `failurehookengine.go`) -/

/-- The fields of `config.FailureHook`. -/
structure FailureHookConfig where
  Name : String
  Description : String
  Bin : String
  Args : List String
  MaxRetry : Nat
  WaitSecondsBetweenRetries : Nat
  deriving DecidableEq, Repr

/-- The fields of `type failureHook struct`. -/
structure failureHook where
  Name : String
  Description : String
  MaxRetry : Nat
  TimeBetweenRetrySeconds : Nat
  bin : String
  args : List String
  deriving DecidableEq, Repr

/-- Constructor `newFailureHook`. -/
def newFailureHook (cfg : FailureHookConfig) : failureHook :=
  { Name := cfg.Name
    Description := cfg.Description
    MaxRetry := cfg.MaxRetry
    TimeBetweenRetrySeconds := cfg.WaitSecondsBetweenRetries
    bin := cfg.Bin
    args := cfg.Args }

/-- Calls of a failure hook that leave it.  `sleep` is a call of `time.Sleep`
with its argument in nanoseconds (a call with a negative or zero argument
returns at once).  `launch` is one attempt: the call of `newProcess` (followed
by `p.run()` when the process was created) together with what it came to. -/
inductive HookEvent where
  | sleep (nanoseconds : Int)
  | launch (name bin : String) (args : List String) (outcome : AttemptOutcome)
  | log (message : String) (level : LogLevel)
  | failureHookRunMetric (successful : String) (name : String)
  deriving DecidableEq, Repr

/-- Function `metricFailureHookRanProcess`: one `failure_hook_run` increment. -/
def metricFailureHookRanProcess (name : String) (exitcode : Int) : HookEvent :=
  let success := if exitcode ≠ 0 then "false" else "true"
  HookEvent.failureHookRunMetric success name

/-- The body of the `for` loop of `failureHook.run`, with the loop variable
`attempt` and what this launch comes to: the calls it makes, and whether it
ends in `continue` or in `break`. -/
def failureHook.iteration (fh : failureHook) (attempt : Nat) (outcome : AttemptOutcome) :
    List HookEvent × LoopControl :=
  let wait :=
    if attempt ≠ 0 then
      if fh.TimeBetweenRetrySeconds ≠ 0 then
        [HookEvent.sleep (sleepDuration fh.TimeBetweenRetrySeconds)]
      else []
    else []
  let launch := HookEvent.launch fh.Name fh.bin fh.args outcome
  match outcome with
  | AttemptOutcome.createError _ =>
    (wait ++ [launch, HookEvent.log "Failed to create failure hook process" LogLevel.ERROR],
      LoopControl.next)
  | AttemptOutcome.runError _ =>
    (wait ++ [launch, HookEvent.log "Failed to run failure hook process" LogLevel.ERROR],
      LoopControl.next)
  | AttemptOutcome.exited exitcode =>
    let tryAgain : Bool := exitcode ≠ 0
    let bad :=
      if exitcode ≠ 0 then [HookEvent.log "Failure hook process exited bad" LogLevel.WARNING]
      else []
    let metric := metricFailureHookRanProcess fh.Name exitcode
    if tryAgain then
      (wait ++ [launch] ++ bad ++ [metric], LoopControl.next)
    else
      (wait ++ [launch] ++ bad
          ++ [metric, HookEvent.log "failure hook ran successfully" LogLevel.INFO],
        LoopControl.broke)

/-- The `for attempt = 0; attempt <= fh.MaxRetry; attempt++` loop of
`failureHook.run`, entered at the test of its condition with the loop variable
`attempt`.  `outcomes k` is what the launch number `k` (from 0) comes to and
`made` counts the launches so far.  One unit of fuel pays for one test of the
loop condition. -/
def failureHook.runLoop (w : Nat) (fh : failureHook) (outcomes : Nat → AttemptOutcome) :
    Nat → Nat → Nat → Option (List HookEvent)
  | 0, _, _ => none
  | fuel + 1, attempt, made =>
    if attempt ≤ fh.MaxRetry then
      let body := fh.iteration attempt (outcomes made)
      match body.2 with
      | LoopControl.next =>
        (failureHook.runLoop w fh outcomes fuel (wrapUint w (attempt + 1)) (made + 1)).map
          fun rest => body.1 ++ rest
      | _ => some body.1
    else
      some []

/-- Method `failureHook.run`: the loop from `attempt = 0`. -/
def failureHook.run (w : Nat) (fh : failureHook) (outcomes : Nat → AttemptOutcome)
    (fuel : Nat) : Option (List HookEvent) :=
  failureHook.runLoop w fh outcomes fuel 0 0

/-- The field of `type FailureHookEngine struct`. -/
structure FailureHookEngine where
  FailureHooks : List failureHook
  deriving DecidableEq, Repr

/-- Constructor `NewFailureHookEngine`: one `append` per configuration entry. -/
def NewFailureHookEngine (cfg : List FailureHookConfig) : FailureHookEngine :=
  cfg.foldl
    (fun fhe fhConfig => { fhe with FailureHooks := fhe.FailureHooks ++ [newFailureHook fhConfig] })
    { FailureHooks := [] }

/-- The `for _, hook := range` loop of `RunHooks` over the hooks from position
`i` on.  `outcomes i k` is what launch `k` of the hook at position `i` comes
to.  The result has no error component: `RunHooks` returns nothing. -/
def runHooksFrom (w : Nat) (outcomes : Nat → Nat → AttemptOutcome) (fuel : Nat) :
    List failureHook → Nat → Option (List HookEvent)
  | [], _ => some []
  | hook :: rest, i =>
    match hook.run w (outcomes i) fuel with
    | none => none
    | some events => (runHooksFrom w outcomes fuel rest (i + 1)).map fun later => events ++ later

/-- Method `FailureHookEngine.RunHooks`. -/
def FailureHookEngine.RunHooks (w : Nat) (fhe : FailureHookEngine)
    (outcomes : Nat → Nat → AttemptOutcome) (fuel : Nat) : Option (List HookEvent) :=
  runHooksFrom w outcomes fuel fhe.FailureHooks 0

/-- Whether an event is an attempt of a hook. -/
def HookEvent.isLaunch : HookEvent → Bool
  | HookEvent.launch _ _ _ _ => true
  | _ => false

/-- The number of attempts in a trace. -/
def attempts (events : List HookEvent) : Nat :=
  events.countP HookEvent.isLaunch

/-- Whether an attempt ended with exit code 0. -/
def AttemptOutcome.succeeded : AttemptOutcome → Bool
  | AttemptOutcome.exited exitcode => exitcode == 0
  | _ => false

/-! ## What a trace of a failure hook shows -/

/-- Whether an event is a wait between attempts. -/
def HookEvent.isSleep : HookEvent → Bool
  | HookEvent.sleep _ => true
  | _ => false

/-- Whether an event is a `failure_hook_run` increment. -/
def HookEvent.isMetric : HookEvent → Bool
  | HookEvent.failureHookRunMetric _ _ => true
  | _ => false

/-- The number of waits in a trace. -/
def sleeps (events : List HookEvent) : Nat :=
  events.countP HookEvent.isSleep

/-- The waits and the attempts of a trace, in the order in which they occur. -/
def schedule (events : List HookEvent) : List HookEvent :=
  events.filter fun e => e.isSleep || e.isLaunch

/-- The `failure_hook_run` increments of a trace, in order. -/
def metrics (events : List HookEvent) : List HookEvent :=
  events.filter HookEvent.isMetric

/-- The increments of the attempts of a trace taken one by one: an attempt
that ended with an exit code has the one `metricFailureHookRanProcess` builds,
an attempt whose process was not created or not started has none. -/
def metricsOfLaunches : List HookEvent → List HookEvent
  | [] => []
  | HookEvent.launch name _ _ (AttemptOutcome.exited exitcode) :: rest =>
    metricFailureHookRanProcess name exitcode :: metricsOfLaunches rest
  | _ :: rest => metricsOfLaunches rest

/-! ## The process runner (`scriptengine/process.go`) -/

/-- The error value `proc.proc.Wait()` hands to `Process.run`: `nil`, an
`*exec.ExitError` (with the `ExitStatus()` of its `syscall.WaitStatus`, or
`none` when `Sys()` is no `WaitStatus`), or an error of another type, which is
how a wait that itself failed is reported. -/
inductive WaitError where
  | nil
  | exitError (exitStatus : Option Int)
  | otherError (err : String)
  deriving DecidableEq, Repr

/-- What the operating system makes of the command: `Start` fails, or the
process starts and `Wait` returns. -/
inductive ProcessOutcome where
  | startFailed (err : String)
  | waited (exitError : WaitError)
  deriving DecidableEq, Repr

/-- Method `Process.run`: the pair `(exitcode, err)` it returns. -/
def Process.run : ProcessOutcome → Int × Option String
  | ProcessOutcome.startFailed err => (1, some err)
  | ProcessOutcome.waited exitError =>
    match exitError with
    | WaitError.exitError (some status) =>
      let exitstatus := if status = -1 then 1 else status
      (exitstatus, none)
    | WaitError.exitError none => (1, none)
    | _ => (0, none)

/-! ## Start and stop of a probe task (`scriptengine/healthcheck.go`) -/

/-- A probe with its `runChecks` channel: `runChecksCloses` counts the
`close(hc.runChecks)` executed so far (0 for the channel `newHealthCheck`
makes). -/
structure ProbeTask where
  hc : HealthCheck
  runChecksCloses : Nat
  deriving DecidableEq, Repr

/-- Method `HealthCheck.Start`, the part that runs in the caller: the flag is
set; the routine it starts is the loop whose body is `tick`. -/
def HealthCheck.Start (task : ProbeTask) : ProbeTask :=
  { task with hc := { task.hc with running := true } }

/-- Method `HealthCheck.Stop`, between `Lock` and `Unlock`.  Closing a channel
that is already closed is a run-time panic. -/
def HealthCheck.Stop (task : ProbeTask) : Except String ProbeTask :=
  if task.hc.running then
    if task.runChecksCloses ≠ 0 then
      Except.error "panic: close of closed channel"
    else
      Except.ok
        { hc := { task.hc with running := false }
          runChecksCloses := task.runChecksCloses + 1 }
  else
    Except.ok task

/-- Calls of `Stop`, one after the other, `n` times. -/
def stopTimes : Nat → ProbeTask → Except String ProbeTask
  | 0, task => Except.ok task
  | n + 1, task =>
    match HealthCheck.Stop task with
    | Except.ok stopped => stopTimes n stopped
    | Except.error e => Except.error e

/-! ## The status handler (`webserver/webserver.go`) -/

/-- An `http.ResponseWriter` as far as the handler uses it.  By the contract
of `net/http`, `WriteHeader` sends the status line with the headers set so
far, a later `WriteHeader` is ignored, and a write without it sends 200
first. -/
structure ResponseWriter where
  header : List (String × String)
  status : Option Nat
  sentHeader : List (String × String)
  body : String
  deriving DecidableEq, Repr

/-- Function `WriteHeader` of the response writer. -/
def ResponseWriter.WriteHeader (w : ResponseWriter) (statusCode : Nat) : ResponseWriter :=
  match w.status with
  | some _ => w
  | none => { w with status := some statusCode, sentHeader := w.header }

/-- Function `setContentJSON`. -/
def setContentJSON (w : ResponseWriter) : ResponseWriter :=
  { w with header := w.header ++ [("Content-Type", "application/json; charset=UTF-8")] }

/-- The write `fmt.Fprint(w, ...)` of the handler. -/
def ResponseWriter.Fprint (w : ResponseWriter) (text : String) : ResponseWriter :=
  let w1 := match w.status with
    | some _ => w
    | none => w.WriteHeader 200
  { w1 with body := w1.body ++ text }

/-- Method `HTTPEngine.showStatus`.  `jsonMarshal` stands for
`json.Marshal(e.stateManager)`; the second component is the error log line,
when there is one. -/
def showStatus (stateManager : StateManager) (jsonMarshal : StateManager → Except String String)
    (w : ResponseWriter) : ResponseWriter × List (String × LogLevel) :=
  let w1 := if !stateManager.Healthy then w.WriteHeader 500 else w
  match jsonMarshal stateManager with
  | Except.error _ =>
    let w2 := w1.WriteHeader 500
    ((setContentJSON w2).Fprint "Internal server error",
      [("Error decoding the state manager to JSON", LogLevel.ERROR)])
  | Except.ok respBytes => ((setContentJSON w1).Fprint respBytes, [])

/-! ## The run loop of the program (`main.go`) -/

/-- A non-nil error received from `fatalErrors`, with whether its sender made
it by the conversion `configStop(...)`.  `type configStop error` is an
interface type with the method set of `error`, so the type assertion
`err.(configStop)` of the loop holds for every non-nil error, this flag
notwithstanding. -/
structure FatalError where
  message : String
  isConfigStop : Bool
  deriving DecidableEq, Repr

/-- Calls of `program.run` that leave it. -/
inductive ProgramEvent where
  | sendExit (value : Bool)
  | log (message : String) (level : LogLevel)
  | stateManagerStop (viaSignal : Bool)
  | stopHTTPEngine
  | stoppingMetric
  | sendFinshed (value : Bool)
  deriving DecidableEq, Repr

/-- How `program.run` ends: it returns, it waits in the `select` with nothing
to receive, or it is stuck sending on `p.exit`, whose one slot is taken and
which nobody else receives from. -/
inductive RunEnd where
  | returned
  | waiting
  | blocked
  deriving DecidableEq, Repr

/-- The `for` and `select` of `program.run`.  `fatalErrors` holds the values
the other routines place on that channel, `exit` the values on `p.exit`
(capacity 1), oldest first.  Where both channels hold a value the `select` may
take either; here it takes `fatalErrors` first.  `ok` is the result of the
type assertion `err.(configStop)`, which holds for every non-nil error, so the
branch that logs `Fatal Error detected` is never taken.  `stopErr` is what
`websrv.StopHTTPEngine()` returns. -/
def program.run (stopErr : Option String) :
    List (Option FatalError) → List Bool → List ProgramEvent × RunEnd
  | none :: rest, exit => program.run stopErr rest exit
  | some _ :: rest, exit =>
    let ok := true
    let logged :=
      if ok then []
      else [ProgramEvent.log "Fatal Error detected" LogLevel.ERROR]
    if exit.length < 1 then
      let later := program.run stopErr rest (exit ++ [false])
      (logged ++ [ProgramEvent.sendExit false] ++ later.1, later.2)
    else
      (logged, RunEnd.blocked)
  | [], isSignal :: _ =>
    let caught :=
      if isSignal then
        [ProgramEvent.log "Stop signal caught, attempting to stop." LogLevel.INFO]
      else []
    let failed :=
      match stopErr with
      | some _ => [ProgramEvent.log "Failed to stop web server" LogLevel.ERROR]
      | none => []
    (caught ++ [ProgramEvent.stateManagerStop isSignal, ProgramEvent.stopHTTPEngine] ++ failed
        ++ [ProgramEvent.stoppingMetric, ProgramEvent.sendFinshed true],
      RunEnd.returned)
  | [], [] => ([], RunEnd.waiting)

/-- The routine of `program.run` that waits on the state manager's channel,
once that channel is closed: what it places on `fatalErrors`. -/
def watchStateManager (ExitAfterFailureHooks : Bool) : List (Option FatalError) :=
  let stop :=
    if ExitAfterFailureHooks then
      [some { message := "stopping due to configuration instruction", isConfigStop := true }]
    else []
  stop ++ [none]

/-- The routine of `program.Start` that ends the process: the exit status it
passes to `os.Exit` for the value `ok` it receives from `p.finshed`. -/
def program.exitcode (ok : Bool) : Int :=
  if !ok then 1 else 0

/-- The exit status of the process after a run: `none` while nothing has been
sent on `p.finshed`. -/
def exitStatus : List ProgramEvent → Option Int
  | [] => none
  | ProgramEvent.sendFinshed ok :: _ => some (program.exitcode ok)
  | _ :: rest => exitStatus rest

/-- The conditions that end a run: an OS termination signal, the close of the
state manager's completion channel, an error of the status server. -/
inductive TerminalCondition where
  | signal
  | completionClosed
  | serverError (err : FatalError)
  deriving DecidableEq, Repr

/-- What a terminal condition that comes first, and alone, places on the two
channels of the loop: the signal routine of `Start` sends `true` on `p.exit`,
the two routines of `run` send on `fatalErrors`. -/
def channelsOn (ExitAfterFailureHooks : Bool) :
    TerminalCondition → List (Option FatalError) × List Bool
  | TerminalCondition.signal => ([], [true])
  | TerminalCondition.completionClosed => (watchStateManager ExitAfterFailureHooks, [])
  | TerminalCondition.serverError err => ([some err], [])

/-! ## Runs of evaluations and lifetimes of the state manager -/

/-- The number of failing evaluations in a run. -/
def failures (codes : List Int) : Nat :=
  codes.countP fun c => c != 0

/-- The number of successes at the end of a run of evaluations. -/
def successRun (codes : List Int) : Nat :=
  (codes.reverse.takeWhile fun c => c == 0).length

/-- A lifetime of the state manager: `Start`, the notifications handled by
`actionFailure`, then one call of `Stop`. -/
def lifetime (sm : StateManager) (causes : List String) (viaSignal : Bool) :
    StateManager × List ManagerEvent :=
  let started := sm.Start
  let failed := started.1.readFromFailChan causes
  let stopped := failed.1.Stop viaSignal
  (stopped.1, started.2 ++ failed.2 ++ stopped.2)

/-! ## Concrete inputs -/

/-- Go's zero value of `HealthCheck`, from which the tests of
`healthcheck_test.go` build their probes. -/
def zeroHealthCheck : HealthCheck :=
  { Name := ""
    Description := ""
    LastExitCode := 0
    LastRuntime := ""
    TotalFailureCount := 0
    RecoveryAttempt := 0
    FailureSinceLastRecovery := 0
    FreqSeconds := 0
    AllowedFailures := 0
    RecoveriesRequired := 0
    GraceMode := false
    failureCounter := 0
    bin := ""
    args := []
    running := false }

/-- A probe named `web` that allows no failure, out of grace mode. -/
def webProbe : HealthCheck :=
  { newHealthCheck
      { Name := "web", Description := "", Bin := "/bin/false", Args := [],
        FreqSeconds := 1, AllowedFailures := 0, RecoverySuccessCount := 1 } with
    GraceMode := false }

/-- A hook that may be retried once, with five seconds between attempts. -/
def retryHook : failureHook :=
  newFailureHook
    { Name := "deregister", Description := "", Bin := "/bin/bash", Args := ["./dereg.sh"],
      MaxRetry := 1, WaitSecondsBetweenRetries := 5 }

/-- Outcomes in which the first attempt exits with code 1 and the second with
code 0. -/
def failsOnce : Nat → AttemptOutcome :=
  fun k => if k = 0 then AttemptOutcome.exited 1 else AttemptOutcome.exited 0

/-- Outcomes in which every attempt exits with code 1. -/
def alwaysFails : Nat → AttemptOutcome :=
  fun _ => AttemptOutcome.exited 1

/-- A configuration whose first hook has the largest 64-bit `max_retry`. -/
def unboundedFirstHook : List FailureHookConfig :=
  [ { Name := "first", Description := "", Bin := "/bin/false", Args := [],
      MaxRetry := 2 ^ 64 - 1, WaitSecondsBetweenRetries := 0 },
    { Name := "second", Description := "", Bin := "/bin/true", Args := [],
      MaxRetry := 0, WaitSecondsBetweenRetries := 0 } ]

/-- The configuration of `TestFailureHookEngine`. -/
def testFailureHooks : List FailureHookConfig :=
  [ { Name := "fail_1", Description := "Failure hook 1", Bin := "/bin/bash",
      Args := ["./testscript.sh", "0"], MaxRetry := 0, WaitSecondsBetweenRetries := 0 },
    { Name := "fail_2", Description := "Failure hook 2", Bin := "/bin/bash",
      Args := ["./testscript.sh", "1"], MaxRetry := 1, WaitSecondsBetweenRetries := 0 } ]

/-- A hook with the largest 64-bit `max_retry` and five seconds between
attempts. -/
def maxRetryHook : failureHook :=
  newFailureHook
    { Name := "drain", Description := "", Bin := "/bin/bash", Args := ["./drain.sh"],
      MaxRetry := 2 ^ 64 - 1, WaitSecondsBetweenRetries := 5 }

/-- Outcomes in which the first `2 ^ 64` attempts exit with code 1 and the
later ones with code 0. -/
def succeedsLate : Nat → AttemptOutcome :=
  fun k => if k < 2 ^ 64 then AttemptOutcome.exited 1 else AttemptOutcome.exited 0

/-- A hook that may be retried once and whose wait, 9223372037 seconds, is the
least whose nanoseconds do not fit an `int64`. -/
def longWaitHook : failureHook :=
  newFailureHook
    { Name := "deregister", Description := "", Bin := "/bin/bash", Args := ["./dereg.sh"],
      MaxRetry := 1, WaitSecondsBetweenRetries := 9223372037 }

/-- Outcomes in which no process can be started. -/
def neverStarts : Nat → AttemptOutcome :=
  fun _ => AttemptOutcome.runError "exec: not found"

/-- A probe that needs two successes in a row to recover and allows two
failures. -/
def flappingProbe : HealthCheck :=
  { webProbe with AllowedFailures := 2, RecoveriesRequired := 2 }

/-- A response writer on which nothing has been set or written. -/
def freshResponse : ResponseWriter :=
  { header := [], status := none, sentHeader := [], body := "" }

/-- A stand-in for `json.Marshal` that always succeeds. -/
def sampleMarshal (sm : StateManager) : Except String String :=
  Except.ok (if sm.Healthy then "healthy" else "sick")

/-- A probe configuration that allows five failures and needs three successes
in a row to recover. -/
def threeRecoveries : HealthCheckConfig :=
  { Name := "db", Description := "", Bin := "/bin/bash", Args := ["./check.sh"],
    FreqSeconds := 10, AllowedFailures := 5, RecoverySuccessCount := 3 }

/-! ## Lemmas on `determineFailure` -/

theorem determineFailure_of_failed (w : Nat) (hc : HealthCheck) (h : hc.LastExitCode ≠ 0) :
    determineFailure w hc =
      ({ hc with
          TotalFailureCount := wrapUint w (hc.TotalFailureCount + 1)
          FailureSinceLastRecovery := wrapUint w (hc.FailureSinceLastRecovery + 1)
          RecoveryAttempt := 0 },
        if hc.AllowedFailures < wrapUint w (hc.FailureSinceLastRecovery + 1) then [hc.Name]
        else []) := by
  unfold determineFailure
  by_cases hra : hc.RecoveryAttempt = 0
  · cases hc
    simp_all
  · simp [h, hra]

theorem wrapUint_of_lt {w n : Nat} (h : n < 2 ^ w) : wrapUint w n = n :=
  Nat.mod_eq_of_lt h

theorem evaluate_of_failed (w : Nat) (hc : HealthCheck) (c : Int) (h : c ≠ 0)
    (hlt : hc.FailureSinceLastRecovery + 1 < 2 ^ w) :
    (evaluate w hc c).1.FailureSinceLastRecovery = hc.FailureSinceLastRecovery + 1 ∧
      (evaluate w hc c).1.Name = hc.Name ∧
      (evaluate w hc c).1.AllowedFailures = hc.AllowedFailures ∧
      (evaluate w hc c).2 =
        if hc.AllowedFailures < hc.FailureSinceLastRecovery + 1 then [hc.Name] else [] := by
  unfold evaluate
  rw [determineFailure_of_failed w _ (by simpa using h)]
  simp [wrapUint_of_lt hlt]

/-- A run of failing evaluations without overflow: the counter goes up by one
per evaluation, and every evaluation that leaves it above `AllowedFailures`
sends the name. -/
theorem evaluations_of_failed (w : Nat) :
    ∀ (codes : List Int) (hc : HealthCheck), (∀ c ∈ codes, c ≠ 0) →
      hc.FailureSinceLastRecovery + codes.length < 2 ^ w →
      (evaluations w hc codes).1.FailureSinceLastRecovery
          = hc.FailureSinceLastRecovery + codes.length ∧
        (evaluations w hc codes).1.Name = hc.Name ∧
        (evaluations w hc codes).1.AllowedFailures = hc.AllowedFailures ∧
        (evaluations w hc codes).2 =
          List.replicate
            (hc.FailureSinceLastRecovery + codes.length
              - max hc.AllowedFailures hc.FailureSinceLastRecovery)
            hc.Name := by
  intro codes
  induction codes with
  | nil =>
    intro hc _ _
    simp [evaluations]
  | cons c cs ih =>
    intro hc hall hlt
    have hc0 : c ≠ 0 := hall c (by simp)
    have hlen : (c :: cs).length = cs.length + 1 := rfl
    obtain ⟨e1, e2, e3, e4⟩ := evaluate_of_failed w hc c hc0 (by omega)
    obtain ⟨i1, i2, i3, i4⟩ := ih (evaluate w hc c).1
      (fun x hx => hall x (by simp [hx])) (by rw [e1]; omega)
    simp only [evaluations]
    refine ⟨by rw [i1, e1]; omega, by rw [i2, e2], by rw [i3, e3], ?_⟩
    rw [i4, e4, e1, e2, e3, hlen]
    by_cases hcmp : hc.AllowedFailures < hc.FailureSinceLastRecovery + 1
    · rw [if_pos hcmp]
      have : hc.FailureSinceLastRecovery + (cs.length + 1)
          - max hc.AllowedFailures hc.FailureSinceLastRecovery
          = (hc.FailureSinceLastRecovery + 1 + cs.length
              - max hc.AllowedFailures (hc.FailureSinceLastRecovery + 1)) + 1 := by
        omega
      rw [this, List.replicate_succ]
      rfl
    · rw [if_neg hcmp]
      have : hc.FailureSinceLastRecovery + (cs.length + 1)
          - max hc.AllowedFailures hc.FailureSinceLastRecovery
          = hc.FailureSinceLastRecovery + 1 + cs.length
              - max hc.AllowedFailures (hc.FailureSinceLastRecovery + 1) := by
        omega
      rw [this]
      rfl

theorem evaluations_append (w : Nat) :
    ∀ (xs ys : List Int) (hc : HealthCheck),
      evaluations w hc (xs ++ ys) =
        ((evaluations w (evaluations w hc xs).1 ys).1,
          (evaluations w hc xs).2 ++ (evaluations w (evaluations w hc xs).1 ys).2) := by
  intro xs
  induction xs with
  | nil => intro ys hc; simp [evaluations]
  | cons x xs ih => intro ys hc; simp [evaluations, ih]

/-! ## The hysteresis of a probe -/

/-- C1, as the claim states it, fails: a probe named `web` that allows no
failure and starts with `FailureSinceLastRecovery = 0` sends on the first
failing evaluation (the counter 1 exceeds 0) and sends again on the second
failing evaluation, with no recovery in between: two notifications, not one. -/
theorem stable_failure_sent_on_every_later_failure :
    webProbe.GraceMode = false ∧ webProbe.FailureSinceLastRecovery = 0 ∧
      webProbe.AllowedFailures = 0 ∧
      (evaluate 64 webProbe 1).2 = ["web"] ∧
      (evaluate 64 (evaluate 64 webProbe 1).1 1).2 = ["web"] ∧
      (evaluations 64 webProbe [1, 1]).2 = ["web", "web"] ∧
      (evaluations 64 webProbe [1, 1]).2.length ≠ 1 := by
  decide

/-- C1, amended: in a run of consecutive failing evaluations that starts with
`FailureSinceLastRecovery = 0` and does not overflow the counter, an evaluation
sends one notification carrying the probe's name exactly when it leaves the
counter above `AllowedFailures`: the one that first exceeds the threshold and
every later one.  A run of `n` failing evaluations sends `n - AllowedFailures`
notifications in total (none when `n ≤ AllowedFailures`). -/
theorem failing_run_notifications (w : Nat) (hc : HealthCheck) (codes : List Int) (c : Int)
    (hstart : hc.FailureSinceLastRecovery = 0)
    (hfail : ∀ x ∈ codes, x ≠ 0) (hc0 : c ≠ 0)
    (hlen : codes.length + 1 < 2 ^ w) :
    (evaluate w (evaluations w hc codes).1 c).2 =
        (if hc.AllowedFailures < codes.length + 1 then [hc.Name] else []) ∧
      (evaluations w hc (codes ++ [c])).2 =
        List.replicate (codes.length + 1 - hc.AllowedFailures) hc.Name := by
  obtain ⟨p1, p2, p3, _⟩ := evaluations_of_failed w codes hc hfail (by omega)
  constructor
  · obtain ⟨_, _, _, e4⟩ :=
      evaluate_of_failed w (evaluations w hc codes).1 c hc0 (by rw [p1]; omega)
    rw [e4, p1, p2, p3, hstart, Nat.zero_add]
  · have hall : ∀ x ∈ codes ++ [c], x ≠ 0 := by
      intro x hx
      rcases List.mem_append.1 hx with h | h
      · exact hfail x h
      · simpa [List.mem_singleton.1 h] using hc0
    obtain ⟨_, _, _, q4⟩ := evaluations_of_failed w (codes ++ [c]) hc hall
      (by simp only [List.length_append, List.length_singleton]; omega)
    rw [q4, hstart]
    simp

/-- The amended C1 at a concrete run: the probe `web` with `AllowedFailures = 1`
sends on the third of three failing evaluations (as it did on the second): two
notifications in all. -/
theorem failing_run_notifications_witness :
    (evaluate 64 (evaluations 64 { webProbe with AllowedFailures := 1 } [1, 1]).1 1).2
        = ["web"] ∧
      (evaluations 64 { webProbe with AllowedFailures := 1 } [1, 1, 1]).2 = ["web", "web"] :=
  failing_run_notifications 64 { webProbe with AllowedFailures := 1 } [1, 1] 1
    rfl (by decide) (by decide) (by decide)

/-- C2: for a probe with `FailureSinceLastRecovery = 0` and
`AllowedFailures = a` with `a + 1` representable, in a run of consecutive
failing evaluations the first `a` evaluations (and every shorter run) send
nothing on the failure channel and evaluation `a + 1` sends the probe's name.
With `a = 0` the first failure sends; with `a = 1` the first failure sends
nothing and the second sends. -/
theorem threshold_crossing_sends_name (w : Nat) (hc : HealthCheck) (codes : List Int) (c : Int)
    (hstart : hc.FailureSinceLastRecovery = 0)
    (hrep : hc.AllowedFailures + 1 < 2 ^ w)
    (hfail : ∀ x ∈ codes, x ≠ 0) (hc0 : c ≠ 0)
    (hlen : codes.length = hc.AllowedFailures) :
    (∀ k, k ≤ hc.AllowedFailures → (evaluations w hc (codes.take k)).2 = []) ∧
      (evaluate w (evaluations w hc codes).1 c).2 = [hc.Name] ∧
      (hc.AllowedFailures = 0 → (evaluate w hc c).2 = [hc.Name]) ∧
      (hc.AllowedFailures = 1 → ∀ c1 : Int, c1 ≠ 0 →
        (evaluate w hc c1).2 = [] ∧ (evaluate w (evaluate w hc c1).1 c).2 = [hc.Name]) := by
  have key : ∀ xs : List Int, (∀ x ∈ xs, x ≠ 0) → xs.length ≤ hc.AllowedFailures →
      (evaluations w hc xs).2 = [] ∧
        (evaluations w hc xs).1.FailureSinceLastRecovery = xs.length ∧
        (evaluations w hc xs).1.Name = hc.Name ∧
        (evaluations w hc xs).1.AllowedFailures = hc.AllowedFailures := by
    intro xs hxs hle
    obtain ⟨p1, p2, p3, p4⟩ := evaluations_of_failed w xs hc hxs (by omega)
    refine ⟨?_, by rw [p1, hstart, Nat.zero_add], p2, p3⟩
    rw [p4, hstart]
    have : 0 + xs.length - max hc.AllowedFailures 0 = 0 := by omega
    rw [this]
    rfl
  have next : ∀ xs : List Int, (∀ x ∈ xs, x ≠ 0) → xs.length = hc.AllowedFailures →
      (evaluate w (evaluations w hc xs).1 c).2 = [hc.Name] := by
    intro xs hxs hl
    obtain ⟨_, k2, k3, k4⟩ := key xs hxs (by omega)
    obtain ⟨_, _, _, e4⟩ :=
      evaluate_of_failed w (evaluations w hc xs).1 c hc0 (by rw [k2]; omega)
    rw [e4, k2, k3, k4, if_pos (by omega)]
  refine ⟨?_, next codes hfail hlen, ?_, ?_⟩
  · intro k hk
    refine (key (codes.take k) (fun x hx => hfail x (List.mem_of_mem_take hx)) ?_).1
    rw [List.length_take]
    omega
  · intro ha
    simpa [evaluations] using next [] (by simp) (by simp [ha])
  · intro ha c1 hc1
    constructor
    · simpa [evaluations] using (key [c1] (by simpa using hc1) (by simp [ha])).1
    · simpa [evaluations] using next [c1] (by simpa using hc1) (by simp [ha])

/-- C2 on the probe of `TestMultipleFailureOnHealthCheck`
(`LastExitCode: 1, AllowedFailures: 1`): nothing after the first failure, the
name after the second. -/
theorem threshold_crossing_sends_name_witness :
    (evaluate 64 { zeroHealthCheck with LastExitCode := 1, AllowedFailures := 1 } 1).2 = [] ∧
      (evaluate 64
        (evaluate 64 { zeroHealthCheck with LastExitCode := 1, AllowedFailures := 1 } 1).1 1).2
        = [""] :=
  (threshold_crossing_sends_name 64
    { zeroHealthCheck with LastExitCode := 1, AllowedFailures := 1 } [1] 1
    rfl (by decide) (by decide) (by decide) rfl).2.2.2 rfl 1 (by decide)

/-- C3: `determineFailure` with `LastExitCode = 0` sends nothing and leaves
`TotalFailureCount` unchanged; with `FailureSinceLastRecovery = 0` it changes
nothing; with `FailureSinceLastRecovery > 0` it increments `RecoveryAttempt`
and, when the incremented value is `>= RecoveriesRequired`, sets
`FailureSinceLastRecovery` and `RecoveryAttempt` to 0, otherwise keeps the
incremented value and leaves `FailureSinceLastRecovery` as it was.  With
`AllowedFailures = 2` and `RecoveriesRequired = 1`, a failure followed by a
success sends nothing and ends with `FailureSinceLastRecovery = 0`. -/
theorem success_evaluation (w : Nat) (hc : HealthCheck) (h : hc.LastExitCode = 0) :
    (determineFailure w hc).2 = [] ∧
      (determineFailure w hc).1.TotalFailureCount = hc.TotalFailureCount ∧
      (hc.FailureSinceLastRecovery = 0 → (determineFailure w hc).1 = hc) ∧
      (0 < hc.FailureSinceLastRecovery →
        (hc.RecoveriesRequired ≤ (hc.RecoveryAttempt + 1) % 2 ^ w →
          (determineFailure w hc).1 =
            { hc with FailureSinceLastRecovery := 0, RecoveryAttempt := 0 }) ∧
        ((hc.RecoveryAttempt + 1) % 2 ^ w < hc.RecoveriesRequired →
          (determineFailure w hc).1 =
            { hc with RecoveryAttempt := (hc.RecoveryAttempt + 1) % 2 ^ w })) ∧
      (∀ (probe : HealthCheck) (c : Int), c ≠ 0 → probe.FailureSinceLastRecovery = 0 →
        probe.AllowedFailures = 2 → probe.RecoveriesRequired = 1 →
        (evaluations w probe [c, 0]).2 = [] ∧
          (evaluations w probe [c, 0]).1.FailureSinceLastRecovery = 0) := by
  refine ⟨?_, ?_, ?_, ?_, ?_⟩
  · unfold determineFailure
    simp only [h, ne_eq, not_true_eq_false, if_false]
    split_ifs <;> rfl
  · unfold determineFailure
    simp only [h, ne_eq, not_true_eq_false, if_false]
    split_ifs <;> rfl
  · intro hz
    unfold determineFailure
    simp [h, hz]
  · intro hpos
    constructor
    · intro hge
      unfold determineFailure
      simp [h, hpos, wrapUint, hge]
    · intro hlt
      unfold determineFailure
      simp [h, hpos, wrapUint, Nat.not_le.2 hlt]
  · intro probe c hc0 hz ha hr
    have e : evaluations w probe [c, 0] =
        ((evaluate w (evaluate w probe c).1 0).1,
          (evaluate w probe c).2 ++ (evaluate w (evaluate w probe c).1 0).2) := by
      simp [evaluations]
    have f : evaluate w probe c =
        ({ probe with
            LastExitCode := c
            TotalFailureCount := wrapUint w (probe.TotalFailureCount + 1)
            FailureSinceLastRecovery := wrapUint w (probe.FailureSinceLastRecovery + 1)
            RecoveryAttempt := 0 },
          if probe.AllowedFailures < wrapUint w (probe.FailureSinceLastRecovery + 1)
          then [probe.Name] else []) := by
      unfold evaluate
      rw [determineFailure_of_failed w _ (by simpa using hc0)]
    have hsmall : wrapUint w (probe.FailureSinceLastRecovery + 1) ≤ 1 := by
      rw [hz]
      unfold wrapUint
      exact Nat.mod_le _ _
    rw [e, f, ha, hr]
    have hnot : ¬ 2 < wrapUint w (probe.FailureSinceLastRecovery + 1) := by omega
    simp only [if_neg hnot, List.nil_append]
    unfold evaluate determineFailure
    simp only [ne_eq, not_true_eq_false, if_false]
    have hone : 1 ≤ wrapUint w (0 + 1) ∨ wrapUint w (0 + 1) = 0 := by omega
    by_cases hp : 0 < wrapUint w (probe.FailureSinceLastRecovery + 1)
    · have hrec : wrapUint w (0 + 1) ≥ 1 := by
        rw [hz] at hp
        omega
      simp [hp, hrec]
    · simp only [hp, if_false]
      exact ⟨trivial, by omega⟩

/-- C3 on the probe of `TestRecoveryOnHealthCheck` after its first failure
(`FailureSinceLastRecovery = 1`, `RecoveriesRequired = 1`) and a good run: no
notification, and the stable recovery resets both counters. -/
theorem success_evaluation_witness :
    (determineFailure 64
        { zeroHealthCheck with
          AllowedFailures := 2, RecoveriesRequired := 1,
          TotalFailureCount := 1, FailureSinceLastRecovery := 1 }).2 = [] ∧
      (determineFailure 64
        { zeroHealthCheck with
          AllowedFailures := 2, RecoveriesRequired := 1,
          TotalFailureCount := 1, FailureSinceLastRecovery := 1 }).1
        = { zeroHealthCheck with
            AllowedFailures := 2, RecoveriesRequired := 1,
            TotalFailureCount := 1, FailureSinceLastRecovery := 0, RecoveryAttempt := 0 } ∧
      (evaluations 64 { zeroHealthCheck with AllowedFailures := 2, RecoveriesRequired := 1 }
        [1, 0]).2 = [] ∧
      (evaluations 64 { zeroHealthCheck with AllowedFailures := 2, RecoveriesRequired := 1 }
        [1, 0]).1.FailureSinceLastRecovery = 0 :=
  have t := success_evaluation 64
    { zeroHealthCheck with
      AllowedFailures := 2, RecoveriesRequired := 1,
      TotalFailureCount := 1, FailureSinceLastRecovery := 1 } rfl
  ⟨t.1, (t.2.2.2.1 (by decide)).1 (by decide),
    t.2.2.2.2 { zeroHealthCheck with AllowedFailures := 2, RecoveriesRequired := 1 } 1
      (by decide) rfl rfl rfl⟩

/-- C4: `determineFailure` with `LastExitCode != 0` adds 1, modulo the word
size, to `TotalFailureCount` and to `FailureSinceLastRecovery`, sets
`RecoveryAttempt` to 0 whatever it was, and leaves every other field
(`AllowedFailures`, `RecoveriesRequired`, `Name`, `GraceMode`, `LastExitCode`
among them) unchanged. -/
theorem failed_evaluation_counters (w : Nat) (hc : HealthCheck) (h : hc.LastExitCode ≠ 0) :
    (determineFailure w hc).1 =
        { hc with
          TotalFailureCount := (hc.TotalFailureCount + 1) % 2 ^ w
          FailureSinceLastRecovery := (hc.FailureSinceLastRecovery + 1) % 2 ^ w
          RecoveryAttempt := 0 } ∧
      (determineFailure w hc).1.AllowedFailures = hc.AllowedFailures ∧
      (determineFailure w hc).1.RecoveriesRequired = hc.RecoveriesRequired ∧
      (determineFailure w hc).1.Name = hc.Name ∧
      (determineFailure w hc).1.GraceMode = hc.GraceMode ∧
      (determineFailure w hc).1.LastExitCode = hc.LastExitCode := by
  rw [determineFailure_of_failed w hc h]
  simp [wrapUint]

/-- C4 on a probe in the middle of a recovery (`RecoveryAttempt = 3`) whose
failure counter is the largest 64-bit value: the counters go to 8 and, by
wrap-around, 0, and the recovery credit is lost. -/
theorem failed_evaluation_counters_witness :
    (determineFailure 64
        { webProbe with
          LastExitCode := 2, TotalFailureCount := 7, RecoveryAttempt := 3,
          FailureSinceLastRecovery := 2 ^ 64 - 1 }).1
      = { webProbe with
          LastExitCode := 2, TotalFailureCount := 8, RecoveryAttempt := 0,
          FailureSinceLastRecovery := 0 } :=
  (failed_evaluation_counters 64
    { webProbe with
      LastExitCode := 2, TotalFailureCount := 7, RecoveryAttempt := 3,
      FailureSinceLastRecovery := 2 ^ 64 - 1 } (by decide)).1

/-! ## Grace mode -/

theorem determineFailure_Name (w : Nat) (hc : HealthCheck) :
    (determineFailure w hc).1.Name = hc.Name := by
  unfold determineFailure
  dsimp only
  split_ifs <;> rfl

theorem determineFailure_LastExitCode (w : Nat) (hc : HealthCheck) :
    (determineFailure w hc).1.LastExitCode = hc.LastExitCode := by
  unfold determineFailure
  dsimp only
  split_ifs <;> rfl

/-- C5: a tick on which the command returns an exit code, run while `GraceMode`
is true, records `LastExitCode` and `LastRuntime` and nothing else: the three
counters are unchanged, nothing is sent on the failure channel and no
`healthcheck_run` metric is emitted (the trace holds the debug log line only).
With `GraceMode` false the tick is `determineFailure` on the recorded state,
its notifications, then the metric; so the metric that accompanies the
evaluation is in the trace exactly when `GraceMode` is false.  In grace mode
the counters are unchanged and the trace holds log lines only also on a tick
whose command could not be created or started. -/
theorem grace_mode_tick (w : Nat) (hc : HealthCheck) (now : String) (exitcode : Int) :
    (hc.GraceMode = true →
      (tick w hc now (AttemptOutcome.exited exitcode)).1 =
          { hc with LastExitCode := exitcode, LastRuntime := now } ∧
        (tick w hc now (AttemptOutcome.exited exitcode)).1.TotalFailureCount
          = hc.TotalFailureCount ∧
        (tick w hc now (AttemptOutcome.exited exitcode)).1.FailureSinceLastRecovery
          = hc.FailureSinceLastRecovery ∧
        (tick w hc now (AttemptOutcome.exited exitcode)).1.RecoveryAttempt
          = hc.RecoveryAttempt ∧
        (tick w hc now (AttemptOutcome.exited exitcode)).2.1 =
          [ProbeEvent.log "Attempting to run healthcheck" LogLevel.DEBUG]) ∧
      (hc.GraceMode = false →
        (tick w hc now (AttemptOutcome.exited exitcode)).1 =
            (determineFailure w { hc with LastExitCode := exitcode, LastRuntime := now }).1 ∧
          (tick w hc now (AttemptOutcome.exited exitcode)).2.1 =
            [ProbeEvent.log "Attempting to run healthcheck" LogLevel.DEBUG]
              ++ (determineFailure w
                    { hc with LastExitCode := exitcode, LastRuntime := now }).2.map
                  ProbeEvent.sendFailed
              ++ [metricHealthcheckRanProcess hc.Name exitcode]) ∧
      ((∃ successful name, ProbeEvent.healthcheckRunMetric successful name
            ∈ (tick w hc now (AttemptOutcome.exited exitcode)).2.1)
        ↔ hc.GraceMode = false) ∧
      (∀ outcome : AttemptOutcome, hc.GraceMode = true →
        (tick w hc now outcome).1.TotalFailureCount = hc.TotalFailureCount ∧
          (tick w hc now outcome).1.FailureSinceLastRecovery = hc.FailureSinceLastRecovery ∧
          (tick w hc now outcome).1.RecoveryAttempt = hc.RecoveryAttempt ∧
          ∀ e ∈ (tick w hc now outcome).2.1, ∃ message level, e = ProbeEvent.log message level)
    := by
  refine ⟨?_, ?_, ?_, ?_⟩
  rotate_left 3
  · intro outcome hg
    cases outcome <;> simp [tick, hg]
  · intro hg
    simp [tick, hg]
  · intro hg
    simp [tick, hg, determineFailure_Name, determineFailure_LastExitCode]
  · cases hg : hc.GraceMode
    · simp only [tick, hg]
      simp [metricHealthcheckRanProcess]
    · simp [tick, hg]

/-- C5 on a freshly built probe (`newHealthCheck` sets `GraceMode`) whose
command exits with code 1: the exit code and the time are recorded, the
counters stay 0 and the trace holds no notification and no metric. -/
theorem grace_mode_tick_witness :
    (tick 64 (newHealthCheck
        { Name := "web", Description := "", Bin := "/bin/false", Args := [],
          FreqSeconds := 1, AllowedFailures := 0, RecoverySuccessCount := 1 })
        "Mon Jan 2" (AttemptOutcome.exited 1)).1
      = { newHealthCheck
            { Name := "web", Description := "", Bin := "/bin/false", Args := [],
              FreqSeconds := 1, AllowedFailures := 0, RecoverySuccessCount := 1 } with
          LastExitCode := 1, LastRuntime := "Mon Jan 2" } ∧
      (tick 64 (newHealthCheck
        { Name := "web", Description := "", Bin := "/bin/false", Args := [],
          FreqSeconds := 1, AllowedFailures := 0, RecoverySuccessCount := 1 })
        "Mon Jan 2" (AttemptOutcome.exited 1)).2.1
      = [ProbeEvent.log "Attempting to run healthcheck" LogLevel.DEBUG] :=
  have t := (grace_mode_tick 64 (newHealthCheck
      { Name := "web", Description := "", Bin := "/bin/false", Args := [],
        FreqSeconds := 1, AllowedFailures := 0, RecoverySuccessCount := 1 })
      "Mon Jan 2" 1).1 rfl
  ⟨t.1, t.2.2.2.2⟩

/-! ## Forwarding of stable failures -/

/-- Whatever is pending, the routine relays nothing but the oldest value, and
leaves the others where they are. -/
theorem forwardFailures_relays_head (internalFailureChan : FailureChan) :
    (forwardFailures internalFailureChan).1 = internalFailureChan.pending.take 1 ∧
      (forwardFailures internalFailureChan).2.pending = internalFailureChan.pending.drop 1 := by
  unfold forwardFailures
  cases h : internalFailureChan.pending with
  | nil => cases hc : internalFailureChan.closed <;> simp [h]
  | cons x xs => simp

/-- C6, at two notifications: with `probeA` and `probeB` placed on the internal
channel the forwarding routine relays `probeA` and ends; `probeB` stays on the
channel and is relayed by nobody. -/
theorem forwarding_stops_after_first_relay :
    forwardFailures { pending := ["probeA", "probeB"], closed := false }
      = (["probeA"], { pending := ["probeB"], closed := false }) ∧
    (forwardFailures { pending := ["probeA", "probeB"], closed := false }).1
      ≠ ["probeA", "probeB"] := by
  decide

/-! ## The state manager -/

theorem actionFailure_of_unhealthy (sm : StateManager) (cause : String)
    (h : sm.Healthy = false) : sm.actionFailure cause = (sm, []) := by
  simp [StateManager.actionFailure, h]

theorem readFromFailChan_of_unhealthy :
    ∀ (causes : List String) (sm : StateManager), sm.Healthy = false →
      sm.readFromFailChan causes = (sm, []) := by
  intro causes
  induction causes with
  | nil => intro sm _; rfl
  | cons c cs ih =>
    intro sm h
    simp [StateManager.readFromFailChan, actionFailure_of_unhealthy sm c h, ih sm h]

/-- C7: after `N >= 1` stable-failure notifications applied by `actionFailure`
to a state manager built by `New`, `Healthy` is false, the probe engine's
`Stop` was called once, `RunHooks` once if `runFailureHooks` is set and not at
all otherwise, and the completion channel was closed once: the whole run is
the first notification's, and on an unhealthy manager `actionFailure` changes
nothing and calls nothing. -/
theorem failure_transition_once (runHooksOnSignal runHooks : Bool) (causes : List String)
    (hN : 1 ≤ causes.length) :
    ((New runHooksOnSignal runHooks).readFromFailChan causes).1.Healthy = false ∧
      ((New runHooksOnSignal runHooks).readFromFailChan causes).2.count
          ManagerEvent.healthCheckEngineStop = 1 ∧
      ((New runHooksOnSignal runHooks).readFromFailChan causes).2.count
          ManagerEvent.runHooks = (if runHooks then 1 else 0) ∧
      ((New runHooksOnSignal runHooks).readFromFailChan causes).2.count
          ManagerEvent.closeExitChan = 1 ∧
      (∀ first rest, causes = first :: rest →
        (New runHooksOnSignal runHooks).readFromFailChan causes
          = (New runHooksOnSignal runHooks).actionFailure first) ∧
      (∀ (sm : StateManager) (cause : String), sm.Healthy = false →
        sm.actionFailure cause = (sm, [])) := by
  cases causes with
  | nil => simp at hN
  | cons first rest =>
    have hfirst : ((New runHooksOnSignal runHooks).actionFailure first).1.Healthy = false := by
      simp [StateManager.actionFailure, New]
    have hrun : (New runHooksOnSignal runHooks).readFromFailChan (first :: rest)
        = (New runHooksOnSignal runHooks).actionFailure first := by
      simp [StateManager.readFromFailChan, readFromFailChan_of_unhealthy rest _ hfirst]
    rw [hrun]
    refine ⟨hfirst, ?_, ?_, ?_, ?_, actionFailure_of_unhealthy⟩
    · cases runHooks <;> simp [StateManager.actionFailure, New]
    · cases runHooks <;> simp [StateManager.actionFailure, New]
    · cases runHooks <;> simp [StateManager.actionFailure, New]
    · intro f r hfr
      have : first = f := by
        injection hfr
      rw [this]

/-- C7 on two notifications, with hooks enabled on failure: one log line, one
stop of the probe engine, one run of the hooks, one close, and `Healthy` off. -/
theorem failure_transition_once_witness :
    (New false true).readFromFailChan ["web", "db"]
      = ({ runFailureHooksOnSignal := false, runFailureHooks := true, Healthy := false },
          [ManagerEvent.log "Stable failure detected" LogLevel.WARNING "web",
            ManagerEvent.healthCheckEngineStop, ManagerEvent.runHooks,
            ManagerEvent.closeExitChan]) :=
  ((failure_transition_once false true ["web", "db"] (by decide)).2.2.2.2.1
    "web" ["db"] rfl).trans (by decide)

/-- C8, as the claim states it, fails on a state manager whose heartbeat
channel is not open.  On a manager built by `New` and never started, `Stop`
stops the probe engine, runs the hooks, and then panics closing the nil
channel: nothing stops a heartbeat emitter.  A second `Stop` of a started
manager panics closing the closed channel. -/
theorem stop_panics_unless_started :
    ((New true true).Stop true).2
        = [ManagerEvent.healthCheckEngineStop, ManagerEvent.runHooks,
            ManagerEvent.panic "close of nil channel"] ∧
      ManagerEvent.closeMetricHeartBeatChan ∉ ((New true true).Stop true).2 ∧
      ((((New true true).Start).1.Stop false).1.Stop false).2
        = [ManagerEvent.healthCheckEngineStop,
            ManagerEvent.panic "close of closed channel"] := by
  decide

/-- C8, amended: on every state manager whose heartbeat channel is open (it
has been started and not yet stopped) and for every value of `viaSignal`,
`Stop(viaSignal)` stops the probe engine, then runs the hooks exactly when
`viaSignal` and `runFailureHooksOnSignal` are both true (whatever
`runFailureHooks` is), then closes the heartbeat channel, which stops the
emitter, without a panic; it leaves `Healthy`, and all of the state but the
channel, as it was. -/
theorem stop_sequence (sm : StateManager) (viaSignal : Bool)
    (hopen : sm.metricHeartBeatChan = ChanState.made) :
    (sm.Stop viaSignal).2 =
        [ManagerEvent.healthCheckEngineStop]
          ++ (if viaSignal = true ∧ sm.runFailureHooksOnSignal = true
              then [ManagerEvent.runHooks] else [])
          ++ [ManagerEvent.closeMetricHeartBeatChan] ∧
      (ManagerEvent.runHooks ∈ (sm.Stop viaSignal).2
        ↔ (viaSignal = true ∧ sm.runFailureHooksOnSignal = true)) ∧
      (sm.Stop viaSignal).2.count ManagerEvent.runHooks ≤ 1 ∧
      (∀ message, ManagerEvent.panic message ∉ (sm.Stop viaSignal).2) ∧
      (sm.Stop viaSignal).1.Healthy = sm.Healthy ∧
      (sm.Stop viaSignal).1 = { sm with metricHeartBeatChan := ChanState.closed } := by
  cases viaSignal <;> cases hs : sm.runFailureHooksOnSignal <;>
    simp [StateManager.Stop, hs, hopen]

/-- The amended C8 on a started manager with hooks on a signal, stopped by a
signal: engine stop, hooks, close of the heartbeat channel, `Healthy`
untouched. -/
theorem stop_sequence_witness :
    (((New true false).Start).1.Stop true).2
        = [ManagerEvent.healthCheckEngineStop, ManagerEvent.runHooks,
            ManagerEvent.closeMetricHeartBeatChan] ∧
      (((New true false).Start).1.Stop true).1.Healthy = true :=
  have h := stop_sequence ((New true false).Start).1 true rfl
  ⟨h.1, h.2.2.2.2.1⟩

/-! ## The retry loop of a failure hook -/

theorem iteration_control (fh : failureHook) (attempt : Nat) (outcome : AttemptOutcome) :
    (fh.iteration attempt outcome).2 =
      if outcome.succeeded = true then LoopControl.broke else LoopControl.next := by
  cases outcome with
  | createError err => simp [failureHook.iteration, AttemptOutcome.succeeded]
  | runError err => simp [failureHook.iteration, AttemptOutcome.succeeded]
  | exited exitcode =>
    by_cases hz : exitcode = 0 <;> simp [failureHook.iteration, AttemptOutcome.succeeded, hz]

/-- The launch of an iteration is the only one in it, and it is the hook's own
command. -/
theorem iteration_launch (fh : failureHook) (attempt : Nat) (outcome : AttemptOutcome) :
    (fh.iteration attempt outcome).1.filter HookEvent.isLaunch
      = [HookEvent.launch fh.Name fh.bin fh.args outcome] := by
  cases outcome with
  | createError err =>
    by_cases ha : attempt = 0 <;> by_cases hd : fh.TimeBetweenRetrySeconds = 0 <;>
      simp [failureHook.iteration, ha, hd, HookEvent.isLaunch, List.filter_cons]
  | runError err =>
    by_cases ha : attempt = 0 <;> by_cases hd : fh.TimeBetweenRetrySeconds = 0 <;>
      simp [failureHook.iteration, ha, hd, HookEvent.isLaunch, List.filter_cons]
  | exited exitcode =>
    by_cases hz : exitcode = 0 <;> by_cases ha : attempt = 0 <;>
      by_cases hd : fh.TimeBetweenRetrySeconds = 0 <;>
      simp [failureHook.iteration, ha, hd, hz, HookEvent.isLaunch, List.filter_cons,
        metricFailureHookRanProcess]

theorem attempts_eq_length_filter (events : List HookEvent) :
    attempts events = (events.filter HookEvent.isLaunch).length := by
  simp [attempts, List.countP_eq_length_filter]

theorem attempts_append (xs ys : List HookEvent) :
    attempts (xs ++ ys) = attempts xs + attempts ys := by
  simp [attempts]

theorem iteration_attempts (fh : failureHook) (attempt : Nat) (outcome : AttemptOutcome) :
    attempts (fh.iteration attempt outcome).1 = 1 := by
  rw [attempts_eq_length_filter, iteration_launch]
  rfl

theorem runLoop_exit (w : Nat) (fh : failureHook) (outcomes : Nat → AttemptOutcome)
    (fuel attempt made : Nat) (h : fh.MaxRetry < attempt) :
    fh.runLoop w outcomes (fuel + 1) attempt made = some [] := by
  simp [failureHook.runLoop, Nat.not_le.2 h]

theorem runLoop_success (w : Nat) (fh : failureHook) (outcomes : Nat → AttemptOutcome)
    (fuel attempt made : Nat) (h : attempt ≤ fh.MaxRetry)
    (hs : (outcomes made).succeeded = true) :
    fh.runLoop w outcomes (fuel + 1) attempt made
      = some (fh.iteration attempt (outcomes made)).1 := by
  simp [failureHook.runLoop, h, iteration_control, hs]

theorem runLoop_failure (w : Nat) (fh : failureHook) (outcomes : Nat → AttemptOutcome)
    (fuel attempt made : Nat) (h : attempt ≤ fh.MaxRetry)
    (hs : (outcomes made).succeeded = false) :
    fh.runLoop w outcomes (fuel + 1) attempt made
      = (fh.runLoop w outcomes fuel (wrapUint w (attempt + 1)) (made + 1)).map
          fun rest => (fh.iteration attempt (outcomes made)).1 ++ rest := by
  simp [failureHook.runLoop, h, iteration_control, hs]

/-- The loop entered with `r` iterations left before `attempt` passes
`MaxRetry`, where `MaxRetry + 1` is representable: it returns, after the
launches `made`, `made + 1`, ... up to the first success or `r` of them. -/
theorem runLoop_bounded (w : Nat) (fh : failureHook) (outcomes : Nat → AttemptOutcome)
    (hrep : fh.MaxRetry + 1 < 2 ^ w) :
    ∀ (r attempt made : Nat), attempt + r = fh.MaxRetry + 1 →
      ∃ events,
        (∀ fuel, r + 1 ≤ fuel → fh.runLoop w outcomes fuel attempt made = some events) ∧
        (0 < r → 1 ≤ attempts events) ∧
        attempts events ≤ r ∧
        (∀ j, made ≤ j → (outcomes j).succeeded = true →
          (∀ i, made ≤ i → i < j → (outcomes i).succeeded = false) →
          attempts events = min (j - made + 1) r) ∧
        ((∀ i, made ≤ i → i < made + r → (outcomes i).succeeded = false) →
          attempts events = r) ∧
        events.filter HookEvent.isLaunch
          = (List.range' made (attempts events)).map
              fun k => HookEvent.launch fh.Name fh.bin fh.args (outcomes k) := by
  intro r
  induction r with
  | zero =>
    intro attempt made hr
    refine ⟨[], ?_, ?_, ?_, ?_, ?_, ?_⟩
    · intro fuel hf
      obtain ⟨f, rfl⟩ : ∃ f, fuel = f + 1 := ⟨fuel - 1, by omega⟩
      exact runLoop_exit w fh outcomes f attempt made (by omega)
    · intro h; omega
    · simp [attempts]
    · intro j _ _ _; simp [attempts]
    · intro _; simp [attempts]
    · simp [attempts]
  | succ r ih =>
    intro attempt made hr
    have hle : attempt ≤ fh.MaxRetry := by omega
    cases hs : (outcomes made).succeeded with
    | true =>
      refine ⟨(fh.iteration attempt (outcomes made)).1, ?_, ?_, ?_, ?_, ?_, ?_⟩
      · intro fuel hf
        obtain ⟨f, rfl⟩ : ∃ f, fuel = f + 1 := ⟨fuel - 1, by omega⟩
        exact runLoop_success w fh outcomes f attempt made hle hs
      · intro _; rw [iteration_attempts]
      · rw [iteration_attempts]; omega
      · intro j hj _ hbefore
        have hjm : j = made := by
          by_contra hne
          have := hbefore made (le_refl _) (by omega)
          rw [hs] at this
          exact Bool.noConfusion this
        rw [iteration_attempts, hjm]
        omega
      · intro hnone
        have := hnone made (le_refl _) (by omega)
        rw [hs] at this
        exact Bool.noConfusion this
      · rw [iteration_attempts, iteration_launch]
        rfl
    | false =>
      obtain ⟨later, l1, _, l3, l4, l5, l6⟩ := ih (attempt + 1) (made + 1) (by omega)
      have hatt : attempts ((fh.iteration attempt (outcomes made)).1 ++ later)
          = attempts later + 1 := by
        rw [attempts_append, iteration_attempts]; omega
      refine ⟨(fh.iteration attempt (outcomes made)).1 ++ later, ?_, ?_, ?_, ?_, ?_, ?_⟩
      · intro fuel hf
        obtain ⟨f, rfl⟩ : ∃ f, fuel = f + 1 := ⟨fuel - 1, by omega⟩
        rw [runLoop_failure w fh outcomes f attempt made hle hs,
          wrapUint_of_lt (by omega), l1 f (by omega)]
        rfl
      · intro _; rw [hatt]; omega
      · rw [hatt]; omega
      · intro j hj hsj hbefore
        have hne : j ≠ made := by
          intro h
          rw [h, hs] at hsj
          exact Bool.noConfusion hsj
        have := l4 j (by omega) hsj (fun i hi hij => hbefore i (by omega) hij)
        rw [hatt, this]
        omega
      · intro hnone
        have := l5 (fun i hi hir => hnone i (by omega) (by omega))
        rw [hatt, this]
      · rw [List.filter_append, iteration_launch, l6, hatt, List.range'_succ]
        rfl

/-- With a hook whose `MaxRetry` is the largest `uint` and whose launches never
succeed, the loop condition `attempt <= MaxRetry` holds for every value of the
loop variable: no amount of fuel lets the loop return. -/
theorem runLoop_never_returns (w : Nat) (fh : failureHook) (outcomes : Nat → AttemptOutcome)
    (hmax : fh.MaxRetry = 2 ^ w - 1) (hnone : ∀ k, (outcomes k).succeeded = false) :
    ∀ (fuel attempt made : Nat), attempt < 2 ^ w →
      fh.runLoop w outcomes fuel attempt made = none := by
  intro fuel
  induction fuel with
  | zero => intro attempt made _; rfl
  | succ f ih =>
    intro attempt made hlt
    rw [runLoop_failure w fh outcomes f attempt made (by omega) (hnone made),
      ih (wrapUint w (attempt + 1)) (made + 1) (Nat.mod_lt _ (by positivity))]
    rfl

/-- C9: for a hook with `MaxRetry = m`, `m + 1` representable, and every
sequence of attempt outcomes, `failureHook.run` returns (any fuel from `m + 2`
on gives the same trace) after exactly `min(j, m + 1)` attempts, `j` being the
1-based index of the first attempt that exits with code 0, and after `m + 1`
attempts when none of the first `m + 1` does.  The attempts are the outcomes
number 0, 1, ... in order, so none follows a success, there are never more
than `m + 1`, and a creation or start error is an attempt like any other. -/
theorem hook_attempt_count (w : Nat) (fh : failureHook) (outcomes : Nat → AttemptOutcome)
    (hrep : fh.MaxRetry + 1 < 2 ^ w) :
    ∃ events,
      (∀ fuel, fh.MaxRetry + 2 ≤ fuel → fh.run w outcomes fuel = some events) ∧
      (∀ j0, (outcomes j0).succeeded = true →
        (∀ i, i < j0 → (outcomes i).succeeded = false) →
        attempts events = min (j0 + 1) (fh.MaxRetry + 1)) ∧
      ((∀ i, i ≤ fh.MaxRetry → (outcomes i).succeeded = false) →
        attempts events = fh.MaxRetry + 1) ∧
      1 ≤ attempts events ∧ attempts events ≤ fh.MaxRetry + 1 ∧
      events.filter HookEvent.isLaunch
        = (List.range (attempts events)).map
            fun k => HookEvent.launch fh.Name fh.bin fh.args (outcomes k) := by
  obtain ⟨events, e1, e2, e3, e4, e5, e6⟩ :=
    runLoop_bounded w fh outcomes hrep (fh.MaxRetry + 1) 0 0 (by omega)
  refine ⟨events, ?_, ?_, ?_, e2 (by omega), e3, ?_⟩
  · intro fuel hf
    exact e1 fuel (by omega)
  · intro j0 hj hbefore
    simpa using e4 j0 (Nat.zero_le _) hj (fun i _ hij => hbefore i hij)
  · intro hnone
    exact e5 (fun i _ hi => hnone i (by omega))
  · rw [e6, List.range_eq_range']

/-- C9 on a hook with `MaxRetry = 1` whose first attempt exits with code 1 and
whose second exits with code 0: the run returns after two attempts. -/
theorem hook_attempt_count_witness :
    ∃ events, retryHook.run 64 failsOnce 3 = some events ∧ attempts events = 2 :=
  (hook_attempt_count 64 retryHook failsOnce (by decide)).elim fun events h =>
    ⟨events, h.1 3 (by decide),
      h.2.1 1 (by decide) (fun i hi => by
        have : i = 0 := by omega
        rw [this]
        decide)⟩

/-! ## The failure hook engine -/

theorem NewFailureHookEngine_hooks (cfg : List FailureHookConfig) :
    (NewFailureHookEngine cfg).FailureHooks = cfg.map newFailureHook := by
  have gen : ∀ (cs : List FailureHookConfig) (acc : FailureHookEngine),
      (cs.foldl
        (fun fhe fhConfig =>
          { fhe with FailureHooks := fhe.FailureHooks ++ [newFailureHook fhConfig] })
        acc).FailureHooks = acc.FailureHooks ++ cs.map newFailureHook := by
    intro cs
    induction cs with
    | nil => intro acc; simp
    | cons c cs ih => intro acc; simp [List.foldl_cons, ih]
  simpa [NewFailureHookEngine] using gen cfg { FailureHooks := [] }

theorem maxRetry_le_sum :
    ∀ (hooks : List failureHook) (h : failureHook), h ∈ hooks →
      h.MaxRetry ≤ (hooks.map failureHook.MaxRetry).sum := by
  intro hooks
  induction hooks with
  | nil => intro h hm; simp at hm
  | cons x xs ih =>
    intro h hm
    rcases List.mem_cons.1 hm with rfl | hm
    · simp
    · have := ih h hm
      simp only [List.map_cons, List.sum_cons]
      omega

/-- The hooks from position `i0` on, each with `MaxRetry + 1` representable:
the loop returns the traces of the hooks one after the other, and each hook
makes between 1 and `MaxRetry + 1` attempts of its own command. -/
theorem runHooksFrom_returns (w : Nat) (outcomes : Nat → Nat → AttemptOutcome) :
    ∀ (hooks : List failureHook) (i0 : Nat), (∀ h ∈ hooks, h.MaxRetry + 1 < 2 ^ w) →
      ∃ traces : List (List HookEvent),
        traces.length = hooks.length ∧
        (∀ fuel, (∀ h ∈ hooks, h.MaxRetry + 2 ≤ fuel) →
          runHooksFrom w outcomes fuel hooks i0 = some traces.flatten) ∧
        (∀ i h, hooks[i]? = some h →
          ∃ t, traces[i]? = some t ∧
            (∀ fuel, h.MaxRetry + 2 ≤ fuel → h.run w (outcomes (i0 + i)) fuel = some t) ∧
            1 ≤ attempts t ∧ attempts t ≤ h.MaxRetry + 1 ∧
            t.filter HookEvent.isLaunch
              = (List.range (attempts t)).map
                  fun k => HookEvent.launch h.Name h.bin h.args (outcomes (i0 + i) k)) := by
  intro hooks
  induction hooks with
  | nil =>
    intro i0 _
    exact ⟨[], rfl, fun _ _ => rfl, fun i h hi => by simp at hi⟩
  | cons hook rest ih =>
    intro i0 hrep
    obtain ⟨events, e1, e2, e3, _, _, e6⟩ :=
      runLoop_bounded w hook (outcomes i0) (hrep hook (by simp)) (hook.MaxRetry + 1) 0 0
        (by omega)
    obtain ⟨later, l1, l2, l3⟩ := ih (i0 + 1) (fun h hm => hrep h (by simp [hm]))
    refine ⟨events :: later, by simp [l1], ?_, ?_⟩
    · intro fuel hf
      have hrun : hook.run w (outcomes i0) fuel = some events :=
        e1 fuel (by have := hf hook (by simp); omega)
      simp only [runHooksFrom, hrun, l2 fuel (fun h hm => hf h (by simp [hm]))]
      rfl
    · intro i h hi
      cases i with
      | zero =>
        have hh : hook = h := by simpa using hi
        subst hh
        refine ⟨events, by simp, ?_, e2 (by omega), e3, ?_⟩
        · intro fuel hf
          exact e1 fuel (by omega)
        · rw [e6, List.range_eq_range']
          rfl
      | succ n =>
        have hn : rest[n]? = some h := by simpa using hi
        obtain ⟨t, t1, t2, t3, t4, t5⟩ := l3 n h hn
        have hidx : i0 + 1 + n = i0 + (n + 1) := by omega
        rw [hidx] at t2 t5
        exact ⟨t, by simpa using t1, t2, t3, t4, t5⟩

/-- C10, at a configuration list whose first hook has the largest 64-bit
`max_retry` and never succeeds: the loop variable wraps
from `2^64 - 1` to 0 and the test `attempt <= MaxRetry` never fails, so the
first hook's `run` does not return, `RunHooks` does not return, and the second
hook is never attempted. -/
theorem unbounded_hook_blocks_the_next :
    (¬ ∃ fuel,
        ((newFailureHook
            { Name := "first", Description := "", Bin := "/bin/false", Args := [],
              MaxRetry := 2 ^ 64 - 1, WaitSecondsBetweenRetries := 0 }).run
          64 alwaysFails fuel).isSome = true) ∧
      ¬ ∃ fuel,
        ((NewFailureHookEngine unboundedFirstHook).RunHooks 64
          (fun _ => alwaysFails) fuel).isSome = true := by
  have hrun : ∀ fuel,
      (newFailureHook
          { Name := "first", Description := "", Bin := "/bin/false", Args := [],
            MaxRetry := 2 ^ 64 - 1, WaitSecondsBetweenRetries := 0 }).run
        64 alwaysFails fuel = none := by
    intro fuel
    exact runLoop_never_returns 64 _ alwaysFails rfl (fun _ => rfl) fuel 0 0 (by decide)
  constructor
  · rintro ⟨fuel, h⟩
    rw [hrun fuel] at h
    exact Bool.noConfusion h
  · rintro ⟨fuel, h⟩
    have hhooks := NewFailureHookEngine_hooks unboundedFirstHook
    simp only [FailureHookEngine.RunHooks, hhooks, unboundedFirstHook, List.map_cons,
      runHooksFrom, hrun fuel] at h
    exact Bool.noConfusion h

/-- Away from the largest `MaxRetry` the hooks run one after the other: for a
hook list built by `NewFailureHookEngine` from a
configuration list in which every `MaxRetry + 1` is representable, and every
assignment of attempt outcomes, the list holds the hooks of the configuration
in the same number and order, and `RunHooks` returns (with enough fuel) the
traces of the hooks one after the other in that order, each the complete run
of its hook; every hook makes at least one attempt of its own command, and at
most `MaxRetry + 1`, whatever the earlier hooks came to.  `RunHooks` has no
error result. -/
theorem hooks_run_in_order (w : Nat) (cfg : List FailureHookConfig)
    (outcomes : Nat → Nat → AttemptOutcome)
    (hrep : ∀ c ∈ cfg, c.MaxRetry + 1 < 2 ^ w) :
    (NewFailureHookEngine cfg).FailureHooks = cfg.map newFailureHook ∧
      ∃ (fuel0 : Nat) (traces : List (List HookEvent)),
        traces.length = cfg.length ∧
        (∀ fuel, fuel0 ≤ fuel →
          (NewFailureHookEngine cfg).RunHooks w outcomes fuel = some traces.flatten) ∧
        (∀ i c, cfg[i]? = some c →
          ∃ t, traces[i]? = some t ∧
            (∀ fuel, fuel0 ≤ fuel →
              (newFailureHook c).run w (outcomes i) fuel = some t) ∧
            1 ≤ attempts t ∧ attempts t ≤ c.MaxRetry + 1 ∧
            t.filter HookEvent.isLaunch
              = (List.range (attempts t)).map
                  fun k => HookEvent.launch c.Name c.Bin c.Args (outcomes i k)) := by
  have hhooks := NewFailureHookEngine_hooks cfg
  refine ⟨hhooks, ?_⟩
  have hrep2 : ∀ h ∈ cfg.map newFailureHook, h.MaxRetry + 1 < 2 ^ w := by
    intro h hm
    obtain ⟨c, hc, rfl⟩ := List.mem_map.1 hm
    exact hrep c hc
  obtain ⟨traces, t1, t2, t3⟩ :=
    runHooksFrom_returns w outcomes (cfg.map newFailureHook) 0 hrep2
  have hsum := maxRetry_le_sum (cfg.map newFailureHook)
  refine ⟨((cfg.map newFailureHook).map failureHook.MaxRetry).sum + 2, traces,
    by simpa using t1, ?_, ?_⟩
  · intro fuel hf
    simp only [FailureHookEngine.RunHooks, hhooks]
    exact t2 fuel (fun h hm => by have := hsum h hm; omega)
  · intro i c hic
    have hget : (cfg.map newFailureHook)[i]? = some (newFailureHook c) := by
      simp [hic]
    obtain ⟨t, u1, u2, u3, u4, u5⟩ := t3 i (newFailureHook c) hget
    have hmem : newFailureHook c ∈ cfg.map newFailureHook :=
      List.mem_map.2 ⟨c, List.getElem?_mem hic, rfl⟩
    rw [Nat.zero_add] at u2 u5
    refine ⟨t, u1, ?_, u3, u4, u5⟩
    intro fuel hf
    exact u2 fuel (by have := hsum _ hmem; omega)

/-- The hooks of the configuration of `TestFailureHookEngine` when every
attempt exits with code 1: `fail_1` (no retry) makes its one attempt, then
`fail_2` (one retry) makes its two, and `RunHooks` returns. -/
theorem hooks_run_in_order_witness :
    (NewFailureHookEngine testFailureHooks).FailureHooks
        = testFailureHooks.map newFailureHook ∧
      ∃ (fuel0 : Nat) (traces : List (List HookEvent)),
        traces.length = 2 ∧
        (NewFailureHookEngine testFailureHooks).RunHooks 64 (fun _ => alwaysFails) fuel0
          = some traces.flatten ∧
        (∃ t, traces[0]? = some t ∧ attempts t = 1) ∧
        (∃ t, traces[1]? = some t ∧ 1 ≤ attempts t ∧ attempts t ≤ 2) :=
  have h := hooks_run_in_order 64 testFailureHooks (fun _ => alwaysFails) (by decide)
  ⟨h.1, h.2.elim fun fuel0 h2 => h2.elim fun traces h3 =>
    ⟨fuel0, traces, h3.1, h3.2.1 fuel0 (le_refl _),
      (h3.2.2 0 _ rfl).elim fun t ht => ⟨t, ht.1, Nat.le_antisymm ht.2.2.2.1 ht.2.2.1⟩,
      (h3.2.2 1 _ rfl).elim fun t ht => ⟨t, ht.1, ht.2.2.1, ht.2.2.2.1⟩⟩⟩

/-! ## The metric of a failure hook -/

theorem metrics_append (xs ys : List HookEvent) :
    metrics (xs ++ ys) = metrics xs ++ metrics ys := by
  simp [metrics]

theorem metricsOfLaunches_append :
    ∀ xs ys : List HookEvent,
      metricsOfLaunches (xs ++ ys) = metricsOfLaunches xs ++ metricsOfLaunches ys := by
  intro xs
  induction xs with
  | nil => intro ys; simp [metricsOfLaunches]
  | cons x xs ih =>
    intro ys
    cases x with
    | launch name bin args outcome =>
      cases outcome <;> simp [metricsOfLaunches, ih]
    | sleep nanoseconds => simp [metricsOfLaunches, ih]
    | log message level => simp [metricsOfLaunches, ih]
    | failureHookRunMetric successful name => simp [metricsOfLaunches, ih]

/-- The increments of one iteration: one, tagged with the hook's name and
with whether the exit code is 0, when the attempt ended with an exit code;
none when the process was not created or not started. -/
theorem iteration_metrics (fh : failureHook) (attempt : Nat) (outcome : AttemptOutcome) :
    metrics (fh.iteration attempt outcome).1 =
        (match outcome with
          | AttemptOutcome.exited exitcode =>
            [HookEvent.failureHookRunMetric (if exitcode = 0 then "true" else "false") fh.Name]
          | _ => []) ∧
      metrics (fh.iteration attempt outcome).1
        = metricsOfLaunches (fh.iteration attempt outcome).1 := by
  cases outcome with
  | createError err =>
    by_cases ha : attempt = 0 <;> by_cases hd : fh.TimeBetweenRetrySeconds = 0 <;>
      simp [failureHook.iteration, ha, hd, metrics, metricsOfLaunches, HookEvent.isMetric,
        List.filter_cons]
  | runError err =>
    by_cases ha : attempt = 0 <;> by_cases hd : fh.TimeBetweenRetrySeconds = 0 <;>
      simp [failureHook.iteration, ha, hd, metrics, metricsOfLaunches, HookEvent.isMetric,
        List.filter_cons]
  | exited exitcode =>
    by_cases hz : exitcode = 0 <;> by_cases ha : attempt = 0 <;>
      by_cases hd : fh.TimeBetweenRetrySeconds = 0 <;>
      simp [failureHook.iteration, ha, hd, hz, metrics, metricsOfLaunches, HookEvent.isMetric,
        List.filter_cons, metricFailureHookRanProcess]

theorem runLoop_metrics (w : Nat) (fh : failureHook) (outcomes : Nat → AttemptOutcome) :
    ∀ (fuel attempt made : Nat) (events : List HookEvent),
      fh.runLoop w outcomes fuel attempt made = some events →
      metrics events = metricsOfLaunches events := by
  intro fuel
  induction fuel with
  | zero =>
    intro attempt made events h
    simp [failureHook.runLoop] at h
  | succ f ih =>
    intro attempt made events h
    by_cases hle : attempt ≤ fh.MaxRetry
    · cases hs : (outcomes made).succeeded with
      | true =>
        rw [runLoop_success w fh outcomes f attempt made hle hs] at h
        have he : (fh.iteration attempt (outcomes made)).1 = events := by simpa using h
        rw [← he]
        exact (iteration_metrics fh attempt (outcomes made)).2
      | false =>
        rw [runLoop_failure w fh outcomes f attempt made hle hs] at h
        obtain ⟨rest, hrest, he⟩ := Option.map_eq_some'.1 h
        rw [← he, metrics_append, metricsOfLaunches_append, ih _ _ rest hrest,
          (iteration_metrics fh attempt (outcomes made)).2]
    · rw [runLoop_exit w fh outcomes f attempt made (by omega)] at h
      have he : [] = events := by simpa using h
      rw [← he]
      rfl

/-- C11, as the claim states it, fails: an attempt on which the process cannot
be created, or cannot be started, is logged and followed by `continue`; it
emits no `failure_hook_run` increment.  A run of two such attempts emits
none. -/
theorem no_metric_without_exit_code :
    (retryHook.iteration 0 (AttemptOutcome.createError "pipe")).1
        = [HookEvent.launch "deregister" "/bin/bash" ["./dereg.sh"]
              (AttemptOutcome.createError "pipe"),
            HookEvent.log "Failed to create failure hook process" LogLevel.ERROR] ∧
      metrics (retryHook.iteration 0 (AttemptOutcome.createError "pipe")).1 = [] ∧
      metrics (retryHook.iteration 0 (AttemptOutcome.runError "exec: not found")).1 = [] ∧
      (retryHook.run 64 neverStarts 3).map attempts = some 2 ∧
      (retryHook.run 64 neverStarts 3).map metrics = some [] := by
  decide

/-- C11, amended: in every hook run, every attempt that ends with an exit code
emits exactly one `failure_hook_run` increment, tagged with the hook's name
and with `successful = "true"` exactly when the exit code is 0; an attempt
whose process could not be created or started emits none.  The increments of
a whole run are those of its attempts, in order. -/
theorem hook_metric_per_exit_code (w : Nat) (fh : failureHook)
    (outcomes : Nat → AttemptOutcome) :
    (∀ attempt exitcode,
        metrics (fh.iteration attempt (AttemptOutcome.exited exitcode)).1
          = [HookEvent.failureHookRunMetric (if exitcode = 0 then "true" else "false")
              fh.Name]) ∧
      (∀ attempt err,
        metrics (fh.iteration attempt (AttemptOutcome.createError err)).1 = [] ∧
          metrics (fh.iteration attempt (AttemptOutcome.runError err)).1 = []) ∧
      (∀ fuel events, fh.run w outcomes fuel = some events →
        metrics events = metricsOfLaunches events) := by
  refine ⟨?_, ?_, ?_⟩
  · intro attempt exitcode
    exact (iteration_metrics fh attempt (AttemptOutcome.exited exitcode)).1
  · intro attempt err
    exact ⟨(iteration_metrics fh attempt (AttemptOutcome.createError err)).1,
      (iteration_metrics fh attempt (AttemptOutcome.runError err)).1⟩
  · intro fuel events h
    exact runLoop_metrics w fh outcomes fuel 0 0 events h

/-- The amended C11 on a hook whose first attempt exits with code 1 and whose
second exits with code 0: one increment tagged `false`, then one tagged
`true`. -/
theorem hook_metric_per_exit_code_witness :
    (retryHook.run 64 failsOnce 3).map metrics
      = some [HookEvent.failureHookRunMetric "false" "deregister",
          HookEvent.failureHookRunMetric "true" "deregister"] :=
  have h := (hook_metric_per_exit_code 64 retryHook failsOnce).2.2 3
    ((retryHook.run 64 failsOnce 3).getD []) (by decide)
  (by decide : (retryHook.run 64 failsOnce 3).map metrics
      = some (metrics ((retryHook.run 64 failsOnce 3).getD []))).trans
    (congrArg some (h.trans (by decide)))

/-! ## The waits of a failure hook -/

theorem schedule_append (xs ys : List HookEvent) :
    schedule (xs ++ ys) = schedule xs ++ schedule ys := by
  simp [schedule]

theorem sleeps_append (xs ys : List HookEvent) :
    sleeps (xs ++ ys) = sleeps xs + sleeps ys := by
  simp [sleeps]

/-- The waits and the attempt of one iteration: the wait, when the loop
variable is not 0, then the attempt. -/
theorem iteration_schedule (fh : failureHook) (attempt : Nat) (outcome : AttemptOutcome)
    (hd : fh.TimeBetweenRetrySeconds ≠ 0) :
    schedule (fh.iteration attempt outcome).1 =
        (if attempt ≠ 0 then [HookEvent.sleep (sleepDuration fh.TimeBetweenRetrySeconds)]
          else [])
          ++ [HookEvent.launch fh.Name fh.bin fh.args outcome] ∧
      sleeps (fh.iteration attempt outcome).1 = (if attempt ≠ 0 then 1 else 0) := by
  cases outcome with
  | createError err =>
    by_cases ha : attempt = 0 <;>
      simp [failureHook.iteration, ha, hd, schedule, sleeps, HookEvent.isSleep,
        HookEvent.isLaunch, List.filter_cons, List.countP_cons]
  | runError err =>
    by_cases ha : attempt = 0 <;>
      simp [failureHook.iteration, ha, hd, schedule, sleeps, HookEvent.isSleep,
        HookEvent.isLaunch, List.filter_cons, List.countP_cons]
  | exited exitcode =>
    by_cases hz : exitcode = 0 <;> by_cases ha : attempt = 0 <;>
      simp [failureHook.iteration, ha, hd, hz, schedule, sleeps, HookEvent.isSleep,
        HookEvent.isLaunch, List.filter_cons, List.countP_cons, metricFailureHookRanProcess]

/-- A returned run of the loop during which the loop variable has not wrapped:
its waits and attempts are those of the iterations `attempt`, `attempt + 1`,
... one after the other. -/
theorem runLoop_schedule (w : Nat) (fh : failureHook) (outcomes : Nat → AttemptOutcome)
    (hd : fh.TimeBetweenRetrySeconds ≠ 0) :
    ∀ (fuel attempt made : Nat) (events : List HookEvent),
      fh.runLoop w outcomes fuel attempt made = some events →
      attempt + attempts events ≤ 2 ^ w →
      schedule events =
          ((List.range (attempts events)).map fun i =>
            (if attempt + i ≠ 0 then
                [HookEvent.sleep (sleepDuration fh.TimeBetweenRetrySeconds)]
              else [])
              ++ [HookEvent.launch fh.Name fh.bin fh.args (outcomes (made + i))]).flatten ∧
        sleeps events = attempts events - (if attempt = 0 then 1 else 0) := by
  intro fuel
  induction fuel with
  | zero =>
    intro attempt made events h
    simp [failureHook.runLoop] at h
  | succ f ih =>
    intro attempt made events h hw
    by_cases hle : attempt ≤ fh.MaxRetry
    · obtain ⟨b1, b2⟩ := iteration_schedule fh attempt (outcomes made) hd
      cases hs : (outcomes made).succeeded with
      | true =>
        rw [runLoop_success w fh outcomes f attempt made hle hs] at h
        have he : (fh.iteration attempt (outcomes made)).1 = events := by simpa using h
        rw [← he, iteration_attempts, b1, b2]
        constructor
        · by_cases ha : attempt = 0 <;> simp [ha, List.range_succ]
        · by_cases ha : attempt = 0 <;> simp [ha]
      | false =>
        rw [runLoop_failure w fh outcomes f attempt made hle hs] at h
        obtain ⟨rest, hrest, he⟩ := Option.map_eq_some'.1 h
        have hatt : attempts events = attempts rest + 1 := by
          rw [← he, attempts_append, iteration_attempts]; omega
        rw [hatt] at hw
        rw [← he, schedule_append, sleeps_append, attempts_append, iteration_attempts, b1, b2]
        by_cases hr : attempts rest = 0
        · obtain ⟨i1, i2⟩ := ih (wrapUint w (attempt + 1)) (made + 1) rest hrest
            (by rw [hr]; exact Nat.le_of_lt (Nat.mod_lt _ (by positivity)))
          rw [i1, i2, hr]
          constructor
          · by_cases ha : attempt = 0 <;> simp [ha, List.range_succ]
          · by_cases ha : attempt = 0 <;> simp [ha]
        · have hwrap : wrapUint w (attempt + 1) = attempt + 1 :=
            wrapUint_of_lt (by omega)
          rw [hwrap] at hrest
          obtain ⟨i1, i2⟩ := ih (attempt + 1) (made + 1) rest hrest (by omega)
          rw [i1, i2]
          constructor
          · rw [Nat.add_comm 1 (attempts rest), List.range_succ_eq_map, List.map_cons,
              List.flatten_cons, List.map_map]
            simp only [Nat.add_zero]
            congr 2
            apply List.map_congr_left
            intro i _
            simp only [Function.comp, Nat.succ_eq_add_one]
            have e1 : attempt + 1 + i = attempt + (i + 1) := by omega
            have e2 : made + 1 + i = made + (i + 1) := by omega
            rw [e1, e2]
          · by_cases ha : attempt = 0 <;> simp [ha]
    · rw [runLoop_exit w fh outcomes f attempt made (by omega)] at h
      have he : [] = events := by simpa using h
      rw [← he]
      simp [schedule, sleeps, attempts]

/-- A block of `n` failing iterations of a hook whose `MaxRetry` is the largest
`uint`, during which the loop variable does not wrap: `n` attempts, a wait
before each but the one with loop variable 0, and the loop goes on. -/
theorem runLoop_failing_block (w : Nat) (fh : failureHook) (outcomes : Nat → AttemptOutcome)
    (hmax : fh.MaxRetry = 2 ^ w - 1) (hd : fh.TimeBetweenRetrySeconds ≠ 0) :
    ∀ (n attempt made : Nat), attempt < 2 ^ w → attempt + n ≤ 2 ^ w →
      (∀ i, i < n → (outcomes (made + i)).succeeded = false) →
      ∃ block, attempts block = n ∧
        sleeps block = n - (if attempt = 0 then 1 else 0) ∧
        ∀ fuel, fh.runLoop w outcomes (fuel + n) attempt made
          = (fh.runLoop w outcomes fuel (wrapUint w (attempt + n)) (made + n)).map
              fun rest => block ++ rest := by
  intro n
  induction n with
  | zero =>
    intro attempt made hlt _ _
    refine ⟨[], rfl, by simp [sleeps], fun fuel => ?_⟩
    rw [Nat.add_zero, Nat.add_zero, Nat.add_zero, wrapUint_of_lt hlt]
    simp
  | succ n ih =>
    intro attempt made hlt hle hfail
    have hfirst : (outcomes made).succeeded = false := by simpa using hfail 0 (by omega)
    have hstep := fun fuel =>
      runLoop_failure w fh outcomes (fuel + n) attempt made (by omega) hfirst
    obtain ⟨_, b2⟩ := iteration_schedule fh attempt (outcomes made) hd
    by_cases hn : n = 0
    · subst hn
      refine ⟨(fh.iteration attempt (outcomes made)).1, iteration_attempts _ _ _, ?_,
        fun fuel => ?_⟩
      · rw [b2]; by_cases ha : attempt = 0 <;> simp [ha]
      · exact hstep fuel
    · obtain ⟨later, l1, l2, l3⟩ := ih (attempt + 1) (made + 1) (by omega) (by omega)
        (fun i hi => by
          have := hfail (i + 1) (by omega)
          rwa [show made + (i + 1) = made + 1 + i by omega] at this)
      refine ⟨(fh.iteration attempt (outcomes made)).1 ++ later, ?_, ?_, fun fuel => ?_⟩
      · rw [attempts_append, iteration_attempts, l1]; omega
      · rw [sleeps_append, b2, l2]
        by_cases ha : attempt = 0
        · simp [ha]
        · simp [ha]
          omega
      · rw [show fuel + (n + 1) = fuel + n + 1 by omega, hstep fuel,
          wrapUint_of_lt (by omega : attempt + 1 < 2 ^ w), l3 fuel,
          show attempt + 1 + n = attempt + (n + 1) by omega,
          show made + 1 + n = made + (n + 1) by omega, Option.map_map]
        congr 1
        funext rest
        simp [Function.comp, List.append_assoc]

/-- Past the wrap of the loop variable the waits are no longer one fewer than
the attempts: the hook `drain`, whose `MaxRetry` is the largest 64-bit value
and whose wait is 5 seconds, fails `2 ^ 64` times and then succeeds.  Attempt
`2 ^ 64 + 1` runs with the loop variable back at 0, so no wait precedes it. -/
theorem no_wait_after_wrap :
    ∃ events, maxRetryHook.run 64 succeedsLate (1 + 2 ^ 64) = some events ∧
      attempts events = 2 ^ 64 + 1 ∧ sleeps events = 2 ^ 64 - 1 ∧
      sleeps events ≠ attempts events - 1 := by
  obtain ⟨block, b1, b2, b3⟩ :=
    runLoop_failing_block 64 maxRetryHook succeedsLate rfl (by decide) (2 ^ 64) 0 0
      (by decide) (by decide)
      (fun i hi => by
        have hi2 : 0 + i < 2 ^ 64 := by omega
        simp only [succeedsLate, if_pos hi2]
        rfl)
  have hlast : (succeedsLate (0 + 2 ^ 64)).succeeded = true := by
    have hge : ¬ 0 + 2 ^ 64 < 2 ^ 64 := by omega
    simp only [succeedsLate, if_neg hge]
    rfl
  have hzero : wrapUint 64 (0 + 2 ^ 64) = 0 := by
    simp [wrapUint]
  have hrun := b3 1
  rw [hzero, runLoop_success 64 maxRetryHook succeedsLate 0 0 (0 + 2 ^ 64) (Nat.zero_le _)
    hlast] at hrun
  refine ⟨block ++ (maxRetryHook.iteration 0 (succeedsLate (0 + 2 ^ 64))).1, ?_, ?_, ?_⟩
  · exact hrun
  · rw [attempts_append, b1, iteration_attempts]
  · have hs : sleeps (block ++ (maxRetryHook.iteration 0 (succeedsLate (0 + 2 ^ 64))).1)
        = 2 ^ 64 - 1 := by
      rw [sleeps_append, b2,
        (iteration_schedule maxRetryHook 0 (succeedsLate (0 + 2 ^ 64)) (by decide)).2]
      simp
    refine ⟨hs, ?_⟩
    rw [hs, attempts_append, b1, iteration_attempts]
    decide

/-- The nanoseconds of a wait of `d` seconds fit an `int64` up to
`d = 9223372036`: the duration slept is then `d` seconds. -/
theorem sleepDuration_of_fits (seconds : Nat) (h : seconds * 1000000000 < 2 ^ 63) :
    sleepDuration seconds = (seconds : Int) * 1000000000 := by
  have h1 : ((seconds : Int) * 1000000000) < 2 ^ 63 := by exact_mod_cast h
  have h0 : (0 : Int) ≤ (seconds : Int) := Int.ofNat_nonneg _
  have hwrap : ∀ n : Int, 0 ≤ n → n < 2 ^ 63 → wrapInt64 n = n := by
    intro n hn0 hn1
    unfold wrapInt64
    rw [Int.emod_eq_of_lt (by omega) (by omega)]
    omega
  unfold sleepDuration
  rw [hwrap (seconds : Int) h0 (by omega), hwrap _ (by omega) h1]

/-- C12, as the claim states it, fails for a long wait: the hook with
`TimeBetweenRetrySeconds = 9223372037` whose first attempt fails and whose
second succeeds calls `time.Sleep` once, between the two attempts, but with
`time.Duration(d) * time.Second` computed in `int64` nanoseconds, which is
negative: the call returns at once, and no wait of `d` seconds occurs. -/
theorem long_wait_wraps :
    (longWaitHook.run 64 failsOnce 3).map schedule
        = some [HookEvent.launch "deregister" "/bin/bash" ["./dereg.sh"]
              (AttemptOutcome.exited 1),
            HookEvent.sleep (-9223372036709551616),
            HookEvent.launch "deregister" "/bin/bash" ["./dereg.sh"]
              (AttemptOutcome.exited 0)] ∧
      sleepDuration 9223372037 = -9223372036709551616 ∧
      sleepDuration 9223372037 ≠ 9223372037 * 1000000000 := by
  decide

/-- C12, amended: for every hook run that makes `k >= 1` attempts, `k` no more
than the `2 ^ w` values of the loop variable (it has not wrapped), with a
non-zero `TimeBetweenRetrySeconds = d`: exactly `k - 1` calls of `time.Sleep`
occur, each with `time.Duration(d) * time.Second`, which is `d` seconds
whenever the nanoseconds of `d` seconds fit an `int64` (`d <= 9223372036`).
The waits and attempts are attempt 1, then, for each of the attempts 2..k, one
wait followed at once by the attempt, whatever the attempt before it came to;
so no wait precedes the first attempt and none follows the last. -/
theorem waits_between_attempts (w : Nat) (fh : failureHook) (outcomes : Nat → AttemptOutcome)
    (fuel : Nat) (events : List HookEvent)
    (hd : fh.TimeBetweenRetrySeconds ≠ 0)
    (hrun : fh.run w outcomes fuel = some events)
    (hk : 1 ≤ attempts events) (hwrap : attempts events ≤ 2 ^ w) :
    sleeps events = attempts events - 1 ∧
      schedule events =
        HookEvent.launch fh.Name fh.bin fh.args (outcomes 0) ::
          ((List.range (attempts events - 1)).map fun i =>
            [HookEvent.sleep (sleepDuration fh.TimeBetweenRetrySeconds),
              HookEvent.launch fh.Name fh.bin fh.args (outcomes (i + 1))]).flatten ∧
      (fh.TimeBetweenRetrySeconds * 1000000000 < 2 ^ 63 →
        sleepDuration fh.TimeBetweenRetrySeconds
          = (fh.TimeBetweenRetrySeconds : Int) * 1000000000) := by
  obtain ⟨s1, s2⟩ := runLoop_schedule w fh outcomes hd fuel 0 0 events hrun (by omega)
  refine ⟨by simpa using s2, ?_, sleepDuration_of_fits _⟩
  obtain ⟨k, hk2⟩ : ∃ k, attempts events = k + 1 := ⟨attempts events - 1, by omega⟩
  rw [s1, hk2, List.range_succ_eq_map, List.map_cons, List.flatten_cons, List.map_map]
  simp only [Nat.add_zero, ne_eq, not_true_eq_false, if_false, List.nil_append,
    List.singleton_append, Nat.add_sub_cancel]
  congr 2
  apply List.map_congr_left
  intro i _
  simp only [Function.comp, Nat.succ_eq_add_one, Nat.zero_add, ne_eq, Nat.add_one_ne_zero,
    not_false_eq_true, if_true, List.singleton_append]

/-- The amended C12 on scenario D, a hook with `max-retry = 1` and a wait of 5
seconds whose first attempt fails and whose second succeeds: one wait, of
5000000000 nanoseconds, between the two attempts. -/
theorem waits_between_attempts_witness :
    (retryHook.run 64 failsOnce 3).map schedule
      = some [HookEvent.launch "deregister" "/bin/bash" ["./dereg.sh"]
            (AttemptOutcome.exited 1),
          HookEvent.sleep 5000000000,
          HookEvent.launch "deregister" "/bin/bash" ["./dereg.sh"]
            (AttemptOutcome.exited 0)] :=
  have h := (waits_between_attempts 64 retryHook failsOnce 3
    ((retryHook.run 64 failsOnce 3).getD []) (by decide) (by decide) (by decide)
    (by decide)).2.1
  (by decide : (retryHook.run 64 failsOnce 3).map schedule
      = some (schedule ((retryHook.run 64 failsOnce 3).getD []))).trans
    (congrArg some (h.trans (by decide)))

/-! ## The process runner -/

/-- What `Process.run` returns, case by case: an error exactly when the
process cannot be started; 1 for an exit error without a usable status; the
reported status for the other exit errors; 0 for every other value of the wait
error, `nil` or not. -/
theorem Process_run_cases (outcome : ProcessOutcome) :
    ((Process.run outcome).2.isSome = true ↔ ∃ err, outcome = ProcessOutcome.startFailed err) ∧
      (outcome = ProcessOutcome.waited (WaitError.exitError none) →
        Process.run outcome = (1, none)) ∧
      (outcome = ProcessOutcome.waited (WaitError.exitError (some (-1))) →
        Process.run outcome = (1, none)) ∧
      (∀ status : Int, status ≠ -1 →
        outcome = ProcessOutcome.waited (WaitError.exitError (some status)) →
        Process.run outcome = (status, none)) ∧
      (outcome = ProcessOutcome.waited WaitError.nil → Process.run outcome = (0, none)) ∧
      (∀ err, outcome = ProcessOutcome.waited (WaitError.otherError err) →
        Process.run outcome = (0, none)) := by
  refine ⟨?_, ?_, ?_, ?_, ?_, ?_⟩
  · cases outcome with
    | startFailed err => simp [Process.run]
    | waited e =>
      cases e with
      | nil => simp [Process.run]
      | exitError st => cases st <;> simp [Process.run]
      | otherError err => simp [Process.run]
  · intro h; rw [h]; rfl
  · intro h; rw [h]; rfl
  · intro status hs h
    rw [h]
    simp [Process.run, hs]
  · intro h; rw [h]; rfl
  · intro err h; rw [h]; rfl

/-- C13, at a wait that fails: when `Wait` returns an error that is no
`*exec.ExitError` (the wait for the process itself failed), `Process.run`
takes the branch written for `nil` and returns exit code 0 with no error, the
same pair it returns for a process that exited with status 0. -/
theorem failed_wait_reported_as_exit_code_zero :
    Process.run (ProcessOutcome.waited (WaitError.otherError "wait: no child processes"))
        = (0, none) ∧
      Process.run (ProcessOutcome.waited (WaitError.otherError "wait: no child processes"))
        = Process.run (ProcessOutcome.waited WaitError.nil) := by
  decide

/-! ## A tick whose command cannot be launched -/

/-- C14, at a command that cannot be started and at one that cannot be
created, on the probe `web` (grace mode off, no failure allowed, so that a
failing evaluation would send a notification at once): the tick sets
`LastExitCode` to 1 and logs, but the counters stay 0 and nothing is sent; and
after the start error the body ends in `return`, which ends the scheduling
loop, where the creation error ends in `continue`. -/
theorem unlaunched_tick_is_not_evaluated :
    webProbe.GraceMode = false ∧
      (evaluate 64 webProbe 1).2 = ["web"] ∧
      tick 64 webProbe "Mon Jan 2" (AttemptOutcome.runError "exec: not found")
        = ({ webProbe with LastExitCode := 1 },
            [ProbeEvent.log "Attempting to run healthcheck" LogLevel.DEBUG,
              ProbeEvent.log "failed to run process" LogLevel.ERROR],
            LoopControl.returned) ∧
      tick 64 webProbe "Mon Jan 2" (AttemptOutcome.createError "pipe")
        = ({ webProbe with LastExitCode := 1 },
            [ProbeEvent.log "Attempting to run healthcheck" LogLevel.DEBUG,
              ProbeEvent.log "failed to create process" LogLevel.ERROR],
            LoopControl.next) ∧
      (tick 64 webProbe "Mon Jan 2"
        (AttemptOutcome.runError "exec: not found")).1.FailureSinceLastRecovery = 0 ∧
      (tick 64 webProbe "Mon Jan 2"
        (AttemptOutcome.runError "exec: not found")).1.TotalFailureCount = 0 := by
  decide

/-! ## The exit status of the process -/

/-- Whatever drives the loop, the value it sends on `p.finshed` is `true`, so
the exit status, when there is one, is 0. -/
theorem exitStatus_run (stopErr : Option String) :
    ∀ (fatalErrors : List (Option FatalError)) (exit : List Bool),
      exitStatus (program.run stopErr fatalErrors exit).1 = some 0 ∨
        exitStatus (program.run stopErr fatalErrors exit).1 = none := by
  intro fatalErrors
  induction fatalErrors with
  | nil =>
    intro exit
    cases exit with
    | nil => right; rfl
    | cons isSignal rest =>
      left
      cases isSignal <;> cases stopErr <;> rfl
  | cons first rest ih =>
    intro exit
    cases first with
    | none => simpa [program.run] using ih exit
    | some err =>
      by_cases hfull : exit.length < 1
      · have := ih (exit ++ [false])
        simpa [program.run, hfull, exitStatus] using this
      · right
        simp [program.run, hfull, exitStatus]

/-- C15, at the two conditions that are not a signal.  When the completion
channel closes with `ExitAfterFailureHooks` set, and when the status server
fails, the loop calls `StateManager.Stop(false)` and then sends `true` on
`p.finshed`, as it does after a signal (where it calls `Stop(true)`): the exit
status is 0 in all three cases, not non-zero in the last two. -/
theorem exit_status_zero_on_failure :
    program.run none (channelsOn true TerminalCondition.completionClosed).1
          (channelsOn true TerminalCondition.completionClosed).2
        = ([ProgramEvent.sendExit false, ProgramEvent.stateManagerStop false,
              ProgramEvent.stopHTTPEngine, ProgramEvent.stoppingMetric,
              ProgramEvent.sendFinshed true],
            RunEnd.returned) ∧
      exitStatus (program.run none (channelsOn true TerminalCondition.completionClosed).1
          (channelsOn true TerminalCondition.completionClosed).2).1 = some 0 ∧
      exitStatus (program.run none
          (channelsOn true (TerminalCondition.serverError
            { message := "listen tcp 127.0.0.1:8080: bind: address already in use",
              isConfigStop := false })).1
          (channelsOn true (TerminalCondition.serverError
            { message := "listen tcp 127.0.0.1:8080: bind: address already in use",
              isConfigStop := false })).2).1 = some 0 ∧
      ProgramEvent.stateManagerStop false ∈
        (program.run none
          (channelsOn true (TerminalCondition.serverError
            { message := "listen tcp 127.0.0.1:8080: bind: address already in use",
              isConfigStop := false })).1
          (channelsOn true (TerminalCondition.serverError
            { message := "listen tcp 127.0.0.1:8080: bind: address already in use",
              isConfigStop := false })).2).1 ∧
      exitStatus (program.run none (channelsOn true TerminalCondition.signal).1
          (channelsOn true TerminalCondition.signal).2).1 = some 0 ∧
      ProgramEvent.stateManagerStop true ∈
        (program.run none (channelsOn true TerminalCondition.signal).1
          (channelsOn true TerminalCondition.signal).2).1 := by
  decide

/-! ## Stopping a probe task -/

theorem Stop_of_stopped (task : ProbeTask) (h : task.hc.running = false) :
    HealthCheck.Stop task = Except.ok task := by
  simp [HealthCheck.Stop, h]

theorem stopTimes_of_stopped :
    ∀ (n : Nat) (task : ProbeTask), task.hc.running = false →
      stopTimes n task = Except.ok task := by
  intro n
  induction n with
  | zero => intro task _; rfl
  | succ n ih =>
    intro task h
    simp [stopTimes, Stop_of_stopped task h, ih task h]

/-- C16: for a probe task whose run channel is open, once started, the first
call of `Stop` clears the running flag and closes the run channel; a call of
`Stop` on a stopped task changes nothing; so `n >= 1` calls in a row end, with
no panic, in the state the first call left, the run channel closed exactly
once. -/
theorem stop_is_idempotent (task : ProbeTask) (n : Nat)
    (hopen : task.runChecksCloses = 0) (hn : 1 ≤ n) :
    HealthCheck.Stop (HealthCheck.Start task)
        = Except.ok { hc := { task.hc with running := false }, runChecksCloses := 1 } ∧
      (∀ stopped : ProbeTask, stopped.hc.running = false →
        HealthCheck.Stop stopped = Except.ok stopped) ∧
      stopTimes n (HealthCheck.Start task)
        = Except.ok { hc := { task.hc with running := false }, runChecksCloses := 1 } := by
  have hfirst : HealthCheck.Stop (HealthCheck.Start task)
      = Except.ok { hc := { task.hc with running := false }, runChecksCloses := 1 } := by
    simp [HealthCheck.Stop, HealthCheck.Start, hopen]
  refine ⟨hfirst, Stop_of_stopped, ?_⟩
  obtain ⟨m, rfl⟩ : ∃ m, n = m + 1 := ⟨n - 1, by omega⟩
  simp only [stopTimes, hfirst]
  exact stopTimes_of_stopped m _ rfl

/-- C16 on the probe `web`, started and then stopped three times: the flag is
cleared and the run channel has been closed once. -/
theorem stop_is_idempotent_witness :
    stopTimes 3 (HealthCheck.Start { hc := webProbe, runChecksCloses := 0 })
      = Except.ok { hc := { webProbe with running := false }, runChecksCloses := 1 } :=
  (stop_is_idempotent { hc := webProbe, runChecksCloses := 0 } 3 rfl (by decide)).2.2

/-! ## The status handler -/

/-- C17: on a response on which no status has been written, for a state
manager whose JSON serialisation succeeds, `showStatus` answers with status
500 if and only if `Healthy` is false and with the default status 200
otherwise; the body it writes is the serialisation of the state manager. -/
theorem status_code_follows_health (stateManager : StateManager)
    (jsonMarshal : StateManager → Except String String) (respBytes : String)
    (w : ResponseWriter)
    (hfresh : w.status = none)
    (hjson : jsonMarshal stateManager = Except.ok respBytes) :
    ((showStatus stateManager jsonMarshal w).1.status = some 500
        ↔ stateManager.Healthy = false) ∧
      (stateManager.Healthy = true →
        (showStatus stateManager jsonMarshal w).1.status = some 200) ∧
      (showStatus stateManager jsonMarshal w).1.body = w.body ++ respBytes ∧
      (showStatus stateManager jsonMarshal w).2 = [] := by
  cases hh : stateManager.Healthy <;>
    simp [showStatus, hjson, hh, hfresh, ResponseWriter.WriteHeader, ResponseWriter.Fprint,
      setContentJSON]

/-- C17 on a state manager that has seen a stable failure: status 500 and the
serialisation as body. -/
theorem status_code_follows_health_witness :
    (showStatus { New false true with Healthy := false } sampleMarshal freshResponse).1.status
        = some 500 ∧
      (showStatus { New false true with Healthy := false } sampleMarshal freshResponse).1.body
        = "sick" :=
  have h := status_code_follows_health { New false true with Healthy := false }
    sampleMarshal "sick" freshResponse rfl rfl
  ⟨h.1.2 rfl, h.2.2.1⟩

/-! ## Hooks over the lifetime of the state manager -/

theorem count_runHooks_Stop (sm : StateManager) (viaSignal : Bool) :
    (sm.Stop viaSignal).2.count ManagerEvent.runHooks
      = if viaSignal = true ∧ sm.runFailureHooksOnSignal = true then 1 else 0 := by
  cases viaSignal <;> cases hs : sm.runFailureHooksOnSignal <;>
    cases hm : sm.metricHeartBeatChan <;>
    simp [StateManager.Stop, hs, hm]

theorem readFromFailChan_flags :
    ∀ (causes : List String) (sm : StateManager),
      (sm.readFromFailChan causes).1.runFailureHooksOnSignal = sm.runFailureHooksOnSignal := by
  intro causes
  induction causes with
  | nil => intro sm; rfl
  | cons c cs ih =>
    intro sm
    simp only [StateManager.readFromFailChan]
    rw [ih]
    unfold StateManager.actionFailure
    split_ifs <;> rfl

theorem count_runHooks_readFromFailChan (sm : StateManager) (causes : List String)
    (hhealthy : sm.Healthy = true) :
    (sm.readFromFailChan causes).2.count ManagerEvent.runHooks
      = if sm.runFailureHooks = true ∧ causes ≠ [] then 1 else 0 := by
  cases causes with
  | nil => simp [StateManager.readFromFailChan]
  | cons first rest =>
    have hfirst : (sm.actionFailure first).1.Healthy = false := by
      simp [StateManager.actionFailure, hhealthy]
    simp only [StateManager.readFromFailChan, readFromFailChan_of_unhealthy rest _ hfirst]
    cases hr : sm.runFailureHooks <;> simp [StateManager.actionFailure, hhealthy, hr]

/-- C19, as the claim states it, fails: with `runFailureHooks` and
`runFailureHooksOnSignal` both set, one stable-failure notification followed
by `Stop(true)` runs the hooks twice, once in `actionFailure` and once in
`Stop`. -/
theorem hooks_run_twice :
    (lifetime (New true true) ["web"] true).2
        = [ManagerEvent.healthCheckEngineStart,
            ManagerEvent.log "Stable failure detected" LogLevel.WARNING "web",
            ManagerEvent.healthCheckEngineStop, ManagerEvent.runHooks,
            ManagerEvent.closeExitChan,
            ManagerEvent.healthCheckEngineStop, ManagerEvent.runHooks,
            ManagerEvent.closeMetricHeartBeatChan] ∧
      (lifetime (New true true) ["web"] true).2.count ManagerEvent.runHooks = 2 := by
  decide

/-- C19, amended: over a lifetime of any number of stable-failure
notifications handled by `actionFailure` followed by one call of
`Stop(viaSignal)`, `RunHooks` is invoked once by the notifications exactly when
`runFailureHooks` is set and there is at least one, and once by `Stop` exactly
when `viaSignal` and `runFailureHooksOnSignal` are both true: at most twice in
total, and at most once unless both flags are set, a notification came and
`Stop` is called on a signal. -/
theorem hooks_over_lifetime (runHooksOnSignal runHooks : Bool) (causes : List String)
    (viaSignal : Bool) :
    (lifetime (New runHooksOnSignal runHooks) causes viaSignal).2.count ManagerEvent.runHooks
        = (if runHooks = true ∧ causes ≠ [] then 1 else 0)
          + (if viaSignal = true ∧ runHooksOnSignal = true then 1 else 0) ∧
      (lifetime (New runHooksOnSignal runHooks) causes viaSignal).2.count ManagerEvent.runHooks
        ≤ 2 ∧
      (¬ (runHooks = true ∧ runHooksOnSignal = true ∧ causes ≠ [] ∧ viaSignal = true) →
        (lifetime (New runHooksOnSignal runHooks) causes viaSignal).2.count
          ManagerEvent.runHooks ≤ 1) := by
  have hcount :
      (lifetime (New runHooksOnSignal runHooks) causes viaSignal).2.count ManagerEvent.runHooks
        = (if runHooks = true ∧ causes ≠ [] then 1 else 0)
          + (if viaSignal = true ∧ runHooksOnSignal = true then 1 else 0) := by
    simp only [lifetime, List.count_append, count_runHooks_Stop, readFromFailChan_flags,
      count_runHooks_readFromFailChan ((New runHooksOnSignal runHooks).Start).1 causes rfl]
    simp [StateManager.Start, New]
  refine ⟨hcount, ?_, ?_⟩
  · rw [hcount]
    split_ifs <;> omega
  · intro hnot
    rw [hcount]
    split_ifs with h1 h2
    · exact absurd ⟨h1.1, h2.2, h1.2, h2.1⟩ hnot
    all_goals omega

/-- The amended C19 on a manager that runs hooks on failure only: two
notifications and a stop on a signal run the hooks once. -/
theorem hooks_over_lifetime_witness :
    (lifetime (New false true) ["web", "db"] true).2.count ManagerEvent.runHooks ≤ 1 :=
  (hooks_over_lifetime false true ["web", "db"] true).2.2 (by decide)

/-! ## Termination of the retry loop -/

/-- C20, at the largest `MaxRetry`: the hook `drain` has
`MaxRetry = 2 ^ 64 - 1`, and no process can be started.  The loop variable
goes from `2 ^ 64 - 1` to 0 at `attempt++`, the test `attempt <= MaxRetry`
holds for each of its values, and the run does not return whatever the fuel:
the loop makes attempt after attempt for ever. -/
theorem max_retry_never_stops :
    maxRetryHook.MaxRetry = 2 ^ 64 - 1 ∧
      wrapUint 64 (maxRetryHook.MaxRetry + 1) = 0 ∧
      ¬ ∃ fuel, (maxRetryHook.run 64 neverStarts fuel).isSome = true := by
  refine ⟨rfl, by decide, ?_⟩
  rintro ⟨fuel, h⟩
  rw [show maxRetryHook.run 64 neverStarts fuel = none from
    runLoop_never_returns 64 maxRetryHook neverStarts rfl (fun _ => rfl) fuel 0 0
      (by decide)] at h
  exact Bool.noConfusion h

/-! ## Flapping probes -/

theorem failures_append_singleton (p : List Int) (c : Int) :
    failures (p ++ [c]) = failures p + (if c ≠ 0 then 1 else 0) := by
  by_cases hc : c = 0 <;> simp [failures, List.countP_append, hc]

theorem successRun_append_singleton (p : List Int) (c : Int) :
    successRun (p ++ [c]) = if c = 0 then successRun p + 1 else 0 := by
  by_cases hc : c = 0 <;> simp [successRun, List.takeWhile_cons, hc]

theorem failures_le_of_prefix {p codes : List Int} (h : p <+: codes) :
    failures p ≤ failures codes :=
  h.sublist.countP_le _

theorem evaluations_append_singleton (w : Nat) (hc : HealthCheck) (p : List Int) (c : Int) :
    (evaluations w hc (p ++ [c])).1 = (evaluate w (evaluations w hc p).1 c).1 := by
  rw [evaluations_append]
  simp [evaluations]

/-- A successful evaluation that does not complete a recovery keeps the
failure counter and advances the recovery counter. -/
theorem evaluate_of_success (w : Nat) (hc : HealthCheck)
    (hlt : wrapUint w (hc.RecoveryAttempt + 1) < hc.RecoveriesRequired ∨
      hc.FailureSinceLastRecovery = 0) :
    (evaluate w hc 0).1.FailureSinceLastRecovery = hc.FailureSinceLastRecovery ∧
      (evaluate w hc 0).1.RecoveryAttempt ≤ hc.RecoveryAttempt + 1 ∧
      (evaluate w hc 0).1.Name = hc.Name ∧
      (evaluate w hc 0).1.AllowedFailures = hc.AllowedFailures ∧
      (evaluate w hc 0).1.RecoveriesRequired = hc.RecoveriesRequired := by
  have hmod : wrapUint w (hc.RecoveryAttempt + 1) ≤ hc.RecoveryAttempt + 1 :=
    Nat.mod_le _ _
  unfold evaluate determineFailure
  by_cases hz : hc.FailureSinceLastRecovery = 0
  · simp [hz]
  · have hpos : 0 < hc.FailureSinceLastRecovery := Nat.pos_of_ne_zero hz
    rcases hlt with hlt | hlt
    · simp [hpos, Nat.not_le.2 hlt, hmod]
    · exact absurd hlt hz

/-- The state after each initial segment of a run of evaluations in which, once
a failure has occurred, the successes never come `RecoveriesRequired` in a row,
and the failures do not overflow the counter. -/
theorem flapping_invariant (w : Nat) (hc : HealthCheck) (codes : List Int)
    (hstart : hc.FailureSinceLastRecovery = 0)
    (hflap : ∀ p ∈ codes.inits, 0 < failures p → successRun p < hc.RecoveriesRequired)
    (hno : failures codes < 2 ^ w) :
    ∀ p : List Int, p <+: codes →
      (evaluations w hc p).1.FailureSinceLastRecovery = failures p ∧
        (0 < failures p → (evaluations w hc p).1.RecoveryAttempt ≤ successRun p) ∧
        (evaluations w hc p).1.Name = hc.Name ∧
        (evaluations w hc p).1.AllowedFailures = hc.AllowedFailures ∧
        (evaluations w hc p).1.RecoveriesRequired = hc.RecoveriesRequired := by
  intro p
  induction p using List.reverseRecOn with
  | nil =>
    intro _
    simp [evaluations, failures, hstart]
  | append_singleton p c ih =>
    intro hp
    have hpre : p <+: codes := (List.prefix_append p [c]).trans hp
    obtain ⟨i1, i2, i3, i4, i5⟩ := ih hpre
    have hle := failures_le_of_prefix hp
    rw [failures_append_singleton] at hle
    rw [evaluations_append_singleton, failures_append_singleton, successRun_append_singleton]
    by_cases hc0 : c = 0
    · subst hc0
      have hrun := hflap (p ++ [0]) ((List.mem_inits _ _).2 hp)
      rw [failures_append_singleton, successRun_append_singleton] at hrun
      simp only [ne_eq, not_true_eq_false, if_false, if_true, Nat.add_zero] at hrun hle ⊢
      have hcond : wrapUint w ((evaluations w hc p).1.RecoveryAttempt + 1)
            < (evaluations w hc p).1.RecoveriesRequired ∨
          (evaluations w hc p).1.FailureSinceLastRecovery = 0 := by
        by_cases hf : 0 < failures p
        · left
          have h1 := i2 hf
          have h2 := hrun hf
          have h3 : wrapUint w ((evaluations w hc p).1.RecoveryAttempt + 1)
              ≤ (evaluations w hc p).1.RecoveryAttempt + 1 := Nat.mod_le _ _
          rw [i5]
          omega
        · right
          rw [i1]
          omega
      obtain ⟨e1, e2, e3, e4, e5⟩ := evaluate_of_success w (evaluations w hc p).1 hcond
      refine ⟨by rw [e1, i1], ?_, by rw [e3, i3], by rw [e4, i4], by rw [e5, i5]⟩
      intro hf
      have := i2 hf
      omega
    · simp only [ne_eq, hc0, not_false_eq_true, if_true, if_false] at hle ⊢
      obtain ⟨e1, e2, e3, _⟩ :=
        evaluate_of_failed w (evaluations w hc p).1 c hc0 (by rw [i1]; omega)
      have e5 : (evaluate w (evaluations w hc p).1 c).1.RecoveriesRequired
          = (evaluations w hc p).1.RecoveriesRequired := by
        unfold evaluate
        rw [determineFailure_of_failed w _ (by simpa using hc0)]
      have e6 : (evaluate w (evaluations w hc p).1 c).1.RecoveryAttempt = 0 := by
        unfold evaluate
        rw [determineFailure_of_failed w _ (by simpa using hc0)]
      refine ⟨by rw [e1, i1], ?_, by rw [e2, i3], by rw [e3, i4], by rw [e5, i5]⟩
      intro _
      rw [e6]

/-- A run of failing evaluations, overflow included: the counter is the number
of failures modulo `2 ^ w`. -/
theorem evaluations_of_failed_mod (w : Nat) :
    ∀ (codes : List Int) (hc : HealthCheck), (∀ c ∈ codes, c ≠ 0) →
      hc.FailureSinceLastRecovery < 2 ^ w →
      (evaluations w hc codes).1.FailureSinceLastRecovery
        = (hc.FailureSinceLastRecovery + codes.length) % 2 ^ w := by
  intro codes
  induction codes with
  | nil =>
    intro hc _ hlt
    simp [evaluations, Nat.mod_eq_of_lt hlt]
  | cons c cs ih =>
    intro hc hall hlt
    have hc0 : c ≠ 0 := hall c (by simp)
    have hstep : (evaluate w hc c).1.FailureSinceLastRecovery
        = (hc.FailureSinceLastRecovery + 1) % 2 ^ w := by
      unfold evaluate
      rw [determineFailure_of_failed w _ (by simpa using hc0)]
      rfl
    simp only [evaluations]
    rw [ih (evaluate w hc c).1 (fun x hx => hall x (by simp [hx]))
      (by rw [hstep]; exact Nat.mod_lt _ (by positivity)), hstep, List.length_cons,
      Nat.mod_add_mod]
    congr 1
    omega

/-- C18, as the claim states it, fails once the counter overflows: the probe
`web` with `RecoveriesRequired = 2`, starting from
`FailureSinceLastRecovery = 0`, evaluated `2 ^ 64` times in a row with exit
code 1 (no success at all, so never two in a row), ends with
`FailureSinceLastRecovery = 0`, not the `2 ^ 64` failures so far. -/
theorem failure_counter_wraps :
    flappingProbe.RecoveriesRequired = 2 ∧ flappingProbe.FailureSinceLastRecovery = 0 ∧
      failures (List.replicate (2 ^ 64) 1) = 2 ^ 64 ∧
      (evaluations 64 flappingProbe (List.replicate (2 ^ 64) 1)).1.FailureSinceLastRecovery
        = 0 := by
  refine ⟨rfl, rfl, ?_, ?_⟩
  · unfold failures
    rw [List.countP_replicate]
    rfl
  · rw [evaluations_of_failed_mod 64 (List.replicate (2 ^ 64) 1) flappingProbe
      (fun c hc => by rw [List.eq_of_mem_replicate hc]; decide) (by decide),
      List.length_replicate]
    decide

/-- C18, amended: for a probe that starts with `FailureSinceLastRecovery = 0`
and a sequence of evaluations in which, after the first failure, the successes
never come `RecoveriesRequired` in a row (with `RecoveriesRequired >= 2`:
isolated successes), and whose failures are fewer than `2 ^ w` (no overflow of
the counter), `FailureSinceLastRecovery` is never reset: after every initial
segment it is the number of failures so far.  Hence the failing run number
`AllowedFailures + 1` sends a stable-failure notification, however many
successes came in between. -/
theorem flapping_counts_as_failing (w : Nat) (hc : HealthCheck) (codes : List Int)
    (hstart : hc.FailureSinceLastRecovery = 0)
    (hflap : ∀ p ∈ codes.inits, 0 < failures p → successRun p < hc.RecoveriesRequired)
    (hno : failures codes < 2 ^ w) :
    (∀ p ∈ codes.inits, (evaluations w hc p).1.FailureSinceLastRecovery = failures p) ∧
      (∀ (p : List Int) (c : Int), p ++ [c] ∈ codes.inits → c ≠ 0 →
        failures p = hc.AllowedFailures →
        (evaluate w (evaluations w hc p).1 c).2 = [hc.Name]) := by
  have inv := flapping_invariant w hc codes hstart hflap hno
  constructor
  · intro p hp
    exact (inv p ((List.mem_inits _ _).1 hp)).1
  · intro p c hp hc0 ha
    have hpc : p ++ [c] <+: codes := (List.mem_inits _ _).1 hp
    obtain ⟨i1, _, i3, i4, _⟩ := inv p ((List.prefix_append p [c]).trans hpc)
    have hle := failures_le_of_prefix hpc
    rw [failures_append_singleton, if_pos hc0] at hle
    obtain ⟨_, _, _, e4⟩ :=
      evaluate_of_failed w (evaluations w hc p).1 c hc0 (by rw [i1]; omega)
    rw [e4, i1, i3, i4, if_pos (by omega)]

/-- The amended C18 on a probe with `AllowedFailures = 2` and
`RecoveriesRequired = 2` whose runs alternate failure and success: after
failure, success, failure, success the counter is 2, and the third failure
sends the notification. -/
theorem flapping_counts_as_failing_witness :
    (evaluations 64 flappingProbe [1, 0, 1, 0]).1.FailureSinceLastRecovery = 2 ∧
      (evaluate 64 (evaluations 64 flappingProbe [1, 0, 1, 0]).1 1).2 = ["web"] :=
  have h := flapping_counts_as_failing 64 flappingProbe [1, 0, 1, 0, 1] rfl
    (by decide) (by decide)
  ⟨h.1 [1, 0, 1, 0] (by decide), h.2 [1, 0, 1, 0] 1 (by decide) (by decide) (by decide)⟩

/-! ## Invariants of the counters -/

theorem failures_cons (c : Int) (cs : List Int) :
    failures (c :: cs) = failures cs + (if c ≠ 0 then 1 else 0) := by
  by_cases hc : c = 0 <;> simp [failures, List.countP_cons, hc]

/-- One evaluation keeps the relations between the counters, provided a
failing one does not overflow `TotalFailureCount`; it adds the failure, if it
is one, to that counter. -/
theorem evaluate_keeps_counters (w : Nat) (hc : HealthCheck) (c : Int)
    (hrec : 0 < hc.RecoveryAttempt →
      0 < hc.FailureSinceLastRecovery ∧ hc.RecoveryAttempt < hc.RecoveriesRequired)
    (hle : hc.FailureSinceLastRecovery ≤ hc.TotalFailureCount)
    (hno : c ≠ 0 → hc.TotalFailureCount + 1 < 2 ^ w) :
    (0 < (evaluate w hc c).1.RecoveryAttempt →
        0 < (evaluate w hc c).1.FailureSinceLastRecovery ∧
          (evaluate w hc c).1.RecoveryAttempt < (evaluate w hc c).1.RecoveriesRequired) ∧
      (evaluate w hc c).1.FailureSinceLastRecovery ≤ (evaluate w hc c).1.TotalFailureCount ∧
      (evaluate w hc c).1.TotalFailureCount
        = hc.TotalFailureCount + (if c ≠ 0 then 1 else 0) := by
  by_cases hc0 : c = 0
  · subst hc0
    unfold evaluate determineFailure
    by_cases hz : hc.FailureSinceLastRecovery = 0
    · simp only [ne_eq, not_true_eq_false, if_false, hz, Nat.lt_irrefl, gt_iff_lt,
        Nat.add_zero]
      refine ⟨fun h => ?_, Nat.zero_le _, trivial⟩
      have := (hrec h).1
      omega
    · have hpos : 0 < hc.FailureSinceLastRecovery := Nat.pos_of_ne_zero hz
      by_cases hge : hc.RecoveriesRequired ≤ wrapUint w (hc.RecoveryAttempt + 1)
      · simp [hpos, hge]
      · simp only [ne_eq, not_true_eq_false, if_false, gt_iff_lt, hpos, if_true, ge_iff_le,
          hge, Nat.add_zero]
        exact ⟨fun _ => ⟨trivial, Nat.not_le.1 hge⟩, hle, trivial⟩
  · have hlt := hno hc0
    unfold evaluate
    rw [determineFailure_of_failed w _ (by simpa using hc0)]
    simp only [ne_eq, hc0, not_false_eq_true, if_true]
    have h1 : wrapUint w (hc.TotalFailureCount + 1) = hc.TotalFailureCount + 1 :=
      wrapUint_of_lt hlt
    have h2 : wrapUint w (hc.FailureSinceLastRecovery + 1) = hc.FailureSinceLastRecovery + 1 :=
      wrapUint_of_lt (by omega)
    refine ⟨fun h => absurd h (Nat.lt_irrefl 0), ?_, h1⟩
    show wrapUint w (hc.FailureSinceLastRecovery + 1) ≤ wrapUint w (hc.TotalFailureCount + 1)
    rw [h1, h2]
    omega

/-- A run of evaluations from a state in which the relations between the
counters hold, without overflow of `TotalFailureCount`, ends in such a
state. -/
theorem evaluations_keep_counters (w : Nat) :
    ∀ (codes : List Int) (hc : HealthCheck),
      (0 < hc.RecoveryAttempt →
        0 < hc.FailureSinceLastRecovery ∧ hc.RecoveryAttempt < hc.RecoveriesRequired) →
      hc.FailureSinceLastRecovery ≤ hc.TotalFailureCount →
      hc.TotalFailureCount + failures codes < 2 ^ w →
      (0 < (evaluations w hc codes).1.RecoveryAttempt →
          0 < (evaluations w hc codes).1.FailureSinceLastRecovery ∧
            (evaluations w hc codes).1.RecoveryAttempt
              < (evaluations w hc codes).1.RecoveriesRequired) ∧
        (evaluations w hc codes).1.FailureSinceLastRecovery
          ≤ (evaluations w hc codes).1.TotalFailureCount := by
  intro codes
  induction codes with
  | nil =>
    intro hc hrec hle _
    exact ⟨hrec, hle⟩
  | cons c cs ih =>
    intro hc hrec hle hno
    rw [failures_cons] at hno
    obtain ⟨e1, e2, e3⟩ := evaluate_keeps_counters w hc c hrec hle
      (fun h => by rw [if_pos h] at hno; omega)
    simp only [evaluations]
    exact ih (evaluate w hc c).1 e1 e2 (by rw [e3]; omega)

/-- C21: in every state reached from a probe built by `newHealthCheck` through
a sequence of evaluations with arbitrary exit codes whose failures do not
overflow the counters (fewer than `2 ^ w` of them), `RecoveryAttempt > 0`
implies `FailureSinceLastRecovery > 0` and
`RecoveryAttempt < RecoveriesRequired`, and
`FailureSinceLastRecovery <= TotalFailureCount`. -/
theorem counters_invariant (w : Nat) (cfg : HealthCheckConfig) (codes : List Int)
    (hno : failures codes < 2 ^ w) :
    (0 < (evaluations w (newHealthCheck cfg) codes).1.RecoveryAttempt →
        0 < (evaluations w (newHealthCheck cfg) codes).1.FailureSinceLastRecovery ∧
          (evaluations w (newHealthCheck cfg) codes).1.RecoveryAttempt
            < (evaluations w (newHealthCheck cfg) codes).1.RecoveriesRequired) ∧
      (evaluations w (newHealthCheck cfg) codes).1.FailureSinceLastRecovery
        ≤ (evaluations w (newHealthCheck cfg) codes).1.TotalFailureCount :=
  evaluations_keep_counters w codes (newHealthCheck cfg)
    (fun h => absurd h (Nat.lt_irrefl 0)) (Nat.le_refl 0)
    (by
      show 0 + failures codes < 2 ^ w
      omega)

/-- C21 on a probe that needs three successes to recover, after two failures
and two successes: `RecoveryAttempt` is 2, below 3, with
`FailureSinceLastRecovery = 2` and `TotalFailureCount = 2`. -/
theorem counters_invariant_witness :
    (evaluations 64 (newHealthCheck threeRecoveries) [1, 1, 0, 0]).1.RecoveryAttempt = 2 ∧
      (0 < (evaluations 64 (newHealthCheck threeRecoveries) [1, 1, 0, 0]).1.RecoveryAttempt →
        0 < (evaluations 64 (newHealthCheck threeRecoveries)
              [1, 1, 0, 0]).1.FailureSinceLastRecovery ∧
          (evaluations 64 (newHealthCheck threeRecoveries) [1, 1, 0, 0]).1.RecoveryAttempt
            < (evaluations 64 (newHealthCheck threeRecoveries)
                [1, 1, 0, 0]).1.RecoveriesRequired) ∧
      (evaluations 64 (newHealthCheck threeRecoveries) [1, 1, 0, 0]).1.FailureSinceLastRecovery
        ≤ (evaluations 64 (newHealthCheck threeRecoveries) [1, 1, 0, 0]).1.TotalFailureCount :=
  ⟨by decide, counters_invariant 64 threeRecoveries [1, 1, 0, 0] (by decide)⟩

end AsgHealthcheck
